import Mathlib

/-!
Verification of the edl2ffmpeg frame-production pipeline, shallowly embedded
from the C++ sources.  Times and C `double`/`float` values are modelled as
rationals; C integer casts and `std::round` are modelled explicitly.
-/

namespace Edl2ffmpeg

/-- C `static_cast` of a real value to an integer type: truncation toward zero. -/
def cppTrunc (q : ℚ) : Int := if 0 ≤ q then ⌊q⌋ else ⌈q⌉

/-- C `std::round`: round half away from zero. -/
def cppRound (q : ℚ) : Int := if 0 ≤ q then ⌊q + 1/2⌋ else ⌈q - 1/2⌉

/-- `std::map::find` on string-keyed maps, as an association-list lookup. -/
def mapFind? {α : Type} (m : List (String × α)) (k : String) : Option α :=
  (m.find? (fun p => p.1 == k)).map (·.2)

/-! ## Compositor instruction model (src/compositor/CompositorInstruction.h) -/

namespace compositor

inductive CIType
  | DrawFrame | GenerateColor | NoOp | Transition
deriving DecidableEq

inductive EffectType
  | Brightness | Contrast | Saturation | Blur | Sharpen
deriving DecidableEq

structure LinearMapping where
  src : ℚ := 0
  dst : ℚ := 0
deriving DecidableEq

structure Effect where
  type : EffectType
  strength : ℚ := 1
  parameters : List ℚ := []
  linearMapping : List LinearMapping := []
  useLinearMapping : Bool := false
deriving DecidableEq

inductive TransitionType
  | NoTransition | Dissolve | Wipe | Slide
deriving DecidableEq

structure TransitionInfo where
  type : TransitionType := .NoTransition
  duration : ℚ := 0
  progress : ℚ := 0
deriving DecidableEq

structure Color3 where
  r : ℚ := 0
  g : ℚ := 0
  b : ℚ := 0
deriving DecidableEq

structure CompositorInstruction where
  type : CIType := .DrawFrame
  trackNumber : Int := 0
  uri : String := ""
  sourceFrameNumber : Int := 0
  panX : ℚ := 0
  panY : ℚ := 0
  zoomX : ℚ := 1
  zoomY : ℚ := 1
  rotation : ℚ := 0
  flip : Bool := false
  fade : ℚ := 1
  effects : List Effect := []
  transition : TransitionInfo := {}
  color : Color3 := {}
deriving DecidableEq

end compositor

/-! ## Orchestrator routing (src/main.cpp) -/

open compositor in
/-- `requiresCPUProcessing` from src/main.cpp, lines 167-199. -/
def requiresCPUProcessing (i : CompositorInstruction) : Bool :=
  if !i.effects.isEmpty then true
  else if i.fade < 1 then true
  else if |i.panX| > 1/1000 ∨ |i.panY| > 1/1000 ∨
          |i.zoomX - 1| > 1/1000 ∨ |i.zoomY - 1| > 1/1000 ∨
          |i.rotation| > 1/1000 ∨ i.flip then true
  else if i.transition.type ≠ TransitionType.NoTransition then true
  else if i.type ≠ CIType.DrawFrame then true
  else false

inductive FramePath
  | gpu | cpu
deriving DecidableEq

open compositor in
/-- The per-frame routing decision of the orchestrator frame loop in
src/main.cpp (lines 429-436): `decoders` maps a URI to the decoder's
`isUsingHardware()` when a non-null decoder is present in the map, and
`hwEncode` is `opts.hwEncode`. -/
def framePath (decoders : String → Option Bool) (hwEncode : Bool)
    (i : CompositorInstruction) : FramePath :=
  let useGPUPassthrough :=
    if i.type = CIType.DrawFrame then
      match decoders i.uri with
      | some hw => hw && hwEncode && !requiresCPUProcessing i
      | none => false
    else false
  if useGPUPassthrough then .gpu else .cpu

/-! ## EDL data model (src/edl/EDLTypes.h) -/

namespace edl

structure Motion where
  panX : ℚ := 0
  panY : ℚ := 0
  zoomX : ℚ := 1
  zoomY : ℚ := 1
  rotation : ℚ := 0
  offset : ℚ := 0
  duration : ℚ := 0
deriving DecidableEq

inductive TransitionParam
  | b (v : Bool) | i (v : Int) | d (v : ℚ) | s (v : String)
deriving DecidableEq

structure Transition where
  type : String := ""
  duration : ℚ := 0
  parameters : List (String × TransitionParam) := []
deriving DecidableEq

structure LinearMapping where
  src : ℚ := 0
  dst : ℚ := 0
deriving DecidableEq

structure ShapeControlPoint where
  point : ℚ := 0
  panx : ℚ := 0
  pany : ℚ := 0
  zoomx : ℚ := 1
  zoomy : ℚ := 1
  rotate : ℚ := 0
  shape : ℚ := 1
deriving DecidableEq

inductive ParamValue
  | i (v : Int) | f (v : ℚ) | s (v : String)
deriving DecidableEq

structure MediaSource where
  uri : String := ""
  tIn : ℚ := 0
  tOut : ℚ := 0
  trackId : String := ""
  width : Int := 0
  height : Int := 0
  fps : Int := 0
  speed : ℚ := 1
  gamma : ℚ := 1
  audiomix : String := ""
deriving DecidableEq

inductive GenerateType
  | Black | Colour | TestPattern | Demo
deriving DecidableEq

structure GenerateSource where
  type : GenerateType := .Black
  tIn : ℚ := 0
  tOut : ℚ := 0
  width : Int := 1920
  height : Int := 1080
  parameters : List (String × ParamValue) := []
deriving DecidableEq

structure LocationSource where
  id : String := ""
  type : String := ""
  tIn : ℚ := 0
  tOut : ℚ := 0
deriving DecidableEq

/-- The parser stores effect data as doubles or dumped-JSON strings. -/
inductive EffectData
  | d (v : ℚ) | s (v : String)
deriving DecidableEq

structure EffectSource where
  type : String := ""
  tIn : ℚ := 0
  tOut : ℚ := 0
  data : List (String × EffectData) := []
deriving DecidableEq

structure TransformSource where
  tIn : ℚ := 0
  tOut : ℚ := 0
  controlPoints : List ShapeControlPoint := []
deriving DecidableEq

structure SubtitleSource where
  text : String := ""
  tIn : ℚ := 0
  tOut : ℚ := 0
deriving DecidableEq

inductive Source
  | media (m : MediaSource)
  | generate (g : GenerateSource)
  | location (l : LocationSource)
  | effect (e : EffectSource)
  | transform (t : TransformSource)
  | subtitle (s : SubtitleSource)
deriving DecidableEq

inductive TrackType
  | Video | Audio | Subtitle | Caption | Burnin
deriving DecidableEq

structure Track where
  type : TrackType := .Video
  number : Int := 1
  subtype : String := ""
  subnumber : Int := 1
deriving DecidableEq

structure TextFormat where
  font : String := ""
  fontSize : Int := 24
  halign : String := "middle"
  valign : String := "bottom"
  textAYUV : String := "FFFFFF"
  backAYUV : String := "000000"
deriving DecidableEq

structure SimpleEffect where
  type : String := ""
  strength : ℚ := 1
deriving DecidableEq

structure Clip where
  tIn : ℚ := 0
  tOut : ℚ := 0
  track : Track := {}
  source : Option Source := none
  sources : List Source := []
  topFade : ℚ := 0
  tailFade : ℚ := 0
  topFadeYUV : String := ""
  tailFadeYUV : String := ""
  motion : Motion := {}
  transition : Option Transition := none
  textFormat : Option TextFormat := none
  channelMap : List (Int × ℚ) := []
  sync : Int := 0
  effects : List SimpleEffect := []
  isNullClip : Bool := false
deriving DecidableEq

structure EDL where
  fps : Int := 30
  width : Int := 1920
  height : Int := 1080
  clips : List Clip := []
  tracks : List (String × List Clip) := []
  fxAppliesTo : List (String × String) := []
deriving DecidableEq

end edl

/-! ## Instruction generator (src/compositor/InstructionGenerator.cpp)

The C++ `in`/`out` fields are named `tIn`/`tOut` here (`in` is reserved in
Lean); everything else keeps the source's names. -/

namespace compositor

open edl

/-- `frameDuration = 1.0 / edl.fps`; `frameToTime` multiplies by it. -/
def frameToTime (e : EDL) (frameNumber : Int) : ℚ :=
  (frameNumber : ℚ) * (1 / (e.fps : ℚ))

/-- `timeToFrame`: `static_cast<int>(std::round(time * edl.fps))`. -/
def timeToFrame (e : EDL) (time : ℚ) : Int :=
  cppRound (time * (e.fps : ℚ))

/-- The constructor's scan for the maximum clip out point. -/
def maxClipOut (e : EDL) : ℚ :=
  e.clips.foldl (fun m c => max m c.tOut) 0

/-- `totalFrames = timeToFrame(maxTime)` computed in the constructor. -/
def totalFrames (e : EDL) : Int :=
  timeToFrame e (maxClipOut e)

/-- `InstructionGenerator::getSourceFrameNumber`. -/
def getSourceFrameNumber (e : EDL) (clip : Clip) (timelineFrame : Int) : Int :=
  let timelineTime := frameToTime e timelineFrame
  let positionInClip := timelineTime - clip.tIn
  let sourcePtr : Option Source :=
    match clip.source with
    | some s => some s
    | none => clip.sources.head?
  match sourcePtr with
  | some (.media ms) =>
      let sourceTime := ms.tIn + positionInClip
      let sourceFps : Int := if ms.fps > 0 then ms.fps else e.fps
      cppTrunc (sourceTime * (sourceFps : ℚ))
  | some (.generate _) => timelineFrame
  | _ => 0

/-- The instruction kind and uri chosen by the source-dispatch block of
`createInstruction` (the colour written in the GenerateColor branches is
black, which equals the field's default).  For a `GenerateSource` in the
`sources` array whose type is not `Black` the source leaves the
instruction's default kind (`DrawFrame`) in place. -/
def clipKindUri (clip : Clip) : CIType × String :=
  match clip.source with
  | some (.media ms) => (.DrawFrame, ms.uri)
  | some (.generate _) => (.GenerateColor, "")
  | some _ => (.NoOp, "")
  | none =>
      match clip.sources with
      | .media ms :: _ => (.DrawFrame, ms.uri)
      | .generate g :: _ =>
          if g.type = GenerateType.Black then (.GenerateColor, "") else (.DrawFrame, "")
      | _ :: _ => (.NoOp, "")
      | [] => (.NoOp, "")

/-- The fade computation of `createInstruction` (InstructionGenerator.cpp,
lines 178-195). -/
def computeFade (clip : Clip) (frameTime : ℚ) : ℚ :=
  let clipDuration := clip.tOut - clip.tIn
  let positionInClip := frameTime - clip.tIn
  let fade : ℚ :=
    if clip.topFade > 0 ∧ positionInClip < clip.topFade then
      positionInClip / clip.topFade
    else 1
  let tailStart := clipDuration - clip.tailFade
  if clip.tailFade > 0 ∧ positionInClip > tailStart then
    min fade ((clipDuration - positionInClip) / clip.tailFade)
  else fade

/-- The transition block of `createInstruction`.  An unrecognised type string
sets duration and progress but leaves the default transition kind. -/
def computeTransition (clip : Clip) (frameTime : ℚ) : TransitionInfo :=
  let positionInClip := frameTime - clip.tIn
  match clip.transition with
  | some tr =>
      if tr.type ≠ "" ∧ tr.duration > 0 ∧ positionInClip < tr.duration then
        { duration := tr.duration
          progress := positionInClip / tr.duration
          type :=
            if tr.type = "dissolve" then .Dissolve
            else if tr.type = "wipe" then .Wipe
            else if tr.type = "slide" then .Slide
            else .NoTransition }
      else {}
  | none => {}

/-- Inline-effect translation at the end of `createInstruction`.  For a type
string other than brightness/contrast/saturation the source pushes an effect
whose kind field was never written (indeterminate in C++); that value is
modelled as `Brightness`, and the strength keeps its default. -/
def simpleEffectToEffect (eff : SimpleEffect) : Effect :=
  if eff.type = "brightness" then { type := .Brightness, strength := eff.strength }
  else if eff.type = "contrast" then { type := .Contrast, strength := eff.strength }
  else if eff.type = "saturation" then { type := .Saturation, strength := eff.strength }
  else { type := .Brightness, strength := 1 }

/-- `InstructionGenerator::createInstruction`, with the field values gathered
into one record literal (the source assigns them imperatively in the same
order; `flip` is never assigned and keeps its default). -/
def createInstruction (e : EDL) (clip : Clip) (frameNumber : Int) :
    CompositorInstruction :=
  if clip.isNullClip then
    { trackNumber := clip.track.number, type := .GenerateColor, color := ⟨0, 0, 0⟩ }
  else
    let frameTime := frameToTime e frameNumber
    { type := (clipKindUri clip).1
      trackNumber := clip.track.number
      uri := (clipKindUri clip).2
      sourceFrameNumber := getSourceFrameNumber e clip frameNumber
      panX := clip.motion.panX
      panY := clip.motion.panY
      zoomX := clip.motion.zoomX
      zoomY := clip.motion.zoomY
      rotation := clip.motion.rotation
      fade := computeFade clip frameTime
      transition := computeTransition clip frameTime
      effects := clip.effects.map simpleEffectToEffect
      color := ⟨0, 0, 0⟩ }

/-- `InstructionGenerator::findClipAtFrame`: the organized `video_N` track is
consulted first; on any miss the search falls back to scanning all clips. -/
def findClipAtFrame (e : EDL) (frameNumber : Int) (trackNumber : Int) :
    Option Clip :=
  let frameTime := frameToTime e frameNumber
  let organized : Option Clip :=
    if e.tracks.isEmpty then none
    else
      match mapFind? e.tracks ("video_" ++ toString trackNumber) with
      | some cs => cs.find? (fun c => decide (c.tIn ≤ frameTime ∧ frameTime < c.tOut))
      | none => none
  match organized with
  | some c => some c
  | none =>
      e.clips.find? (fun c =>
        decide (c.track.type = TrackType.Video ∧ c.track.number = trackNumber ∧
          c.track.subtype = "" ∧ c.tIn ≤ frameTime ∧ frameTime < c.tOut))

/-- `InstructionGenerator::findEffectClipAtFrame`. -/
def findEffectClipAtFrame (e : EDL) (frameNumber : Int) (trackNumber : Int) :
    Option Clip :=
  let frameTime := frameToTime e frameNumber
  e.clips.find? (fun c =>
    decide (c.track.type = TrackType.Video ∧ c.track.number = trackNumber ∧
      c.track.subtype = "effects" ∧ c.tIn ≤ frameTime ∧ frameTime < c.tOut))

/-- `InstructionGenerator::applyEffectClip` (the frame number is only used
for an unused local in the source). -/
def applyEffectClip (i : CompositorInstruction) (effectClip : Clip) :
    CompositorInstruction :=
  let sourcePtr : Option Source :=
    match effectClip.source with
    | some s => some s
    | none => effectClip.sources.head?
  match sourcePtr with
  | some (.effect es) =>
      match mapFind? es.data "value" with
      | some (.d v) =>
          let eff : Effect :=
            if es.type = "brightness" then { type := .Brightness, strength := v }
            else if es.type = "contrast" then { type := .Contrast, strength := v }
            else if es.type = "saturation" then { type := .Saturation, strength := v }
            else { type := .Brightness, strength := 1 }
          { i with effects := i.effects ++ [eff] }
      | _ => i
  | _ => i

/-- `InstructionGenerator::getInstructionForFrame`. -/
def getInstructionForFrame (e : EDL) (frameNumber : Int) : CompositorInstruction :=
  match findClipAtFrame e frameNumber 1 with
  | none => { type := .GenerateColor, color := ⟨0, 0, 0⟩ }
  | some clip =>
      let i := createInstruction e clip frameNumber
      match findEffectClipAtFrame e frameNumber clip.track.number with
      | some ec => applyEffectClip i ec
      | none => i

/-- The instruction sequence produced by iterating from `begin()`
(frame 0) to `end()` (frame `totalFrames`). -/
def instructions (e : EDL) : List CompositorInstruction :=
  List.map (fun n => getInstructionForFrame e (Int.ofNat n))
    (List.range (totalFrames e).toNat)

end compositor

/-! ## Decoder adapter (src/media/FFmpegDecoder.cpp) -/

namespace media

/-- External behaviour the decoder does not control: the stream length,
whether `av_seek_frame` succeeds, and whether the decode that would advance
`currentFrameNumber` to a given value succeeds (`decodeNextFrame` increments
`currentFrameNumber` by exactly one whenever it returns true). -/
structure DecoderEnv where
  totalFrames : Int
  seekOk : Bool := true
  decodeOk : Int → Bool := fun _ => true

/-- Result of `seekToFrame`: the return value, the resulting
`currentFrameNumber`, whether a container seek (`av_seek_frame` plus codec
flush, packet discard and reset to −1) was performed, and how many decode
attempts the catch-up loop made. -/
structure SeekOutcome where
  success : Bool
  currentFrameNumber : Int
  didSeek : Bool
  decodes : Nat
deriving DecidableEq

/-- The decode-and-discard loop at the end of `seekToFrame`:
`while (currentFrameNumber < frameNumber - 1)` call `decodeNextFrame`,
returning false on a failed decode.  Yields (success, final
`currentFrameNumber`, decode attempts). -/
def decodeAndDiscard (decodeOk : Int → Bool) (cur frameNumber : Int) :
    Bool × Int × Nat :=
  if h : cur < frameNumber - 1 then
    if decodeOk (cur + 1) then
      let r := decodeAndDiscard decodeOk (cur + 1) frameNumber
      (r.1, r.2.1, r.2.2 + 1)
    else (false, cur, 1)
  else (true, cur, 0)
termination_by (frameNumber - 1 - cur).toNat
decreasing_by omega

/-- `FFmpegDecoder::seekToFrame` (lines 297-340), as a function of the
`currentFrameNumber` state. -/
def seekToFrame (env : DecoderEnv) (cur frameNumber : Int) : SeekOutcome :=
  if frameNumber < 0 ∨ frameNumber ≥ env.totalFrames then
    ⟨false, cur, false, 0⟩
  else if cur = frameNumber then
    ⟨true, cur, false, 0⟩
  else if cur > frameNumber ∨ cur < frameNumber - 60 then
    if env.seekOk then
      let r := decodeAndDiscard env.decodeOk (-1) frameNumber
      ⟨r.1, r.2.1, true, r.2.2⟩
    else ⟨false, cur, true, 0⟩
  else
    let r := decodeAndDiscard env.decodeOk cur frameNumber
    ⟨r.1, r.2.1, false, r.2.2⟩

/-- `FFmpegDecoder::getFrame`: whether a frame is returned, and the
resulting `currentFrameNumber`. -/
def getFrame (env : DecoderEnv) (cur frameNumber : Int) : Bool × Int :=
  let s := seekToFrame env cur frameNumber
  if s.success then
    if env.decodeOk (s.currentFrameNumber + 1) then (true, s.currentFrameNumber + 1)
    else (false, s.currentFrameNumber)
  else (false, s.currentFrameNumber)

/-- `FFmpegDecoder::getHardwareFrame`; without hardware decoding it falls
back to `getFrame`; `allocOk` stands for the `av_frame_alloc` result. -/
def getHardwareFrame (env : DecoderEnv) (usingHardware allocOk : Bool)
    (cur frameNumber : Int) : Bool × Int :=
  if !usingHardware then getFrame env cur frameNumber
  else
    let s := seekToFrame env cur frameNumber
    if s.success then
      if allocOk then
        if env.decodeOk (s.currentFrameNumber + 1) then (true, s.currentFrameNumber + 1)
        else (false, s.currentFrameNumber)
      else (false, s.currentFrameNumber)
    else (false, s.currentFrameNumber)

/-! ## Encoder adapter (src/media/FFmpegEncoder.cpp) -/

/-- External results of the codec-library calls made by the encoder. -/
structure EncoderEnv where
  usingHardware : Bool := false
  asyncMode : Bool := false
  convertOk : Bool := true
  encodeOk : Bool := true
  allocOk : Bool := true
  transferOk : Bool := true
  trailerOk : Bool := true

structure EncoderState where
  finalized : Bool := false
  pts : Int := 0
deriving DecidableEq

/-- Result of a write call: the return value, the new state, and how many
frames were sent to the codec. -/
structure WriteOutcome where
  ok : Bool
  state : EncoderState
  sends : Nat
deriving DecidableEq

/-- `FFmpegEncoder::writeFrame` (lines 574-650): the null/finalized guard, a
possible conversion failure, then `pts = pts++` and one send to the codec. -/
def writeFrame (env : EncoderEnv) (s : EncoderState) (frameIsNull : Bool) :
    WriteOutcome :=
  if frameIsNull || s.finalized then ⟨false, s, 0⟩
  else if !env.convertOk then ⟨false, s, 0⟩
  else ⟨env.encodeOk, { s with pts := s.pts + 1 }, 1⟩

/-- `FFmpegEncoder::writeHardwareFrame` (lines 651-793): the null/finalized
guard, fallback to `writeFrame` without hardware, then either the upload
path (allocate, transfer, pts, send) or the passthrough path (shallow
reference, pts, send). -/
def writeHardwareFrame (env : EncoderEnv) (s : EncoderState)
    (frameIsNull frameIsHardware : Bool) : WriteOutcome :=
  if frameIsNull || s.finalized then ⟨false, s, 0⟩
  else if !env.usingHardware then writeFrame env s frameIsNull
  else if !frameIsHardware then
    if !env.allocOk then ⟨false, s, 0⟩
    else if !env.transferOk then ⟨false, s, 0⟩
    else ⟨env.encodeOk, { s with pts := s.pts + 1 }, 1⟩
  else
    if !env.allocOk then ⟨false, s, 0⟩
    else ⟨env.encodeOk, { s with pts := s.pts + 1 }, 1⟩

/-- Result of `finalize`: return value, new state, whether the flush/drain
block ran, and whether `av_write_trailer` was called. -/
structure FinalizeOutcome where
  ok : Bool
  state : EncoderState
  flushed : Bool
  trailerAttempted : Bool
deriving DecidableEq

/-- `FFmpegEncoder::finalize` (lines 1067-1149): an already-finalized
encoder returns true immediately; otherwise the encoder is flushed, the
trailer is written, and only on success is `finalized` set. -/
def finalize (env : EncoderEnv) (s : EncoderState) : FinalizeOutcome :=
  if s.finalized then ⟨true, s, false, false⟩
  else if env.trailerOk then ⟨true, { s with finalized := true }, true, true⟩
  else ⟨false, s, true, true⟩

end media

/-! ## Frame compositor LUT path (src/compositor/FrameCompositor.cpp) -/

namespace compositor

/-- `(uint8_t)std::max(0, std::min(255, value))`. -/
def clampByte (v : Int) : Int := max 0 (min 255 v)

/-- The LUT built by `FrameCompositor::applyBrightness`:
`adjustment = (int)((strength - 1.0f) * 255)`, `lut[i] = clamp(i + adjustment)`. -/
def brightnessLUT (strength : ℚ) (i : Nat) : Int :=
  let adjustment := cppTrunc ((strength - 1) * 255)
  clampByte ((i : Int) + adjustment)

/-- The scan of `FrameCompositor::linearInterpolate` for the surrounding
mapping points, returning indices into the list (the source compares
pointers, which coincide exactly when the indices do).  `prev` keeps the
last point with `src ≤ input`; the loop breaks at the first point with
`src ≥ input`. -/
def findSurrounding (input : ℚ) (mapping : List LinearMapping) (idx : Nat)
    (prev : Option Nat) : Option Nat × Option Nat :=
  match mapping with
  | [] => (prev, none)
  | m :: rest =>
      let prev' := if m.src ≤ input then some idx else prev
      if m.src ≥ input then (prev', some idx)
      else findSurrounding input rest (idx + 1) prev'

/-- `FrameCompositor::linearInterpolate` (lines 328-379). -/
def linearInterpolate (input : ℚ) (mapping : List LinearMapping) : ℚ :=
  match mapping with
  | [] => input
  | [m] => m.dst
  | _ =>
      match findSurrounding input mapping 0 none with
      | (none, _) => ((mapping.head?).map (·.dst)).getD 0
      | (some _, none) => ((mapping.getLast?).map (·.dst)).getD 0
      | (some pi, some ni) =>
          let p := (mapping.get? pi).getD {}
          let n := (mapping.get? ni).getD {}
          if pi = ni then p.dst
          else
            let srcRange := n.src - p.src
            if srcRange < 1/10000 then p.dst
            else p.dst + ((input - p.src) / srcRange) * (n.dst - p.dst)

/-- `FrameCompositor::buildBrightnessLUT`:
`lut[i] = clamp((int)(linearInterpolate(i / 255.0f) * 255.0f + 0.5f))`. -/
def buildBrightnessLUT (mapping : List LinearMapping) (i : Nat) : Int :=
  clampByte (cppTrunc (linearInterpolate ((i : ℚ) / 255) mapping * 255 + 1/2))

/-- `FrameCompositor::applyBrightnessLUT` restricted to the Y plane,
flattened to one pixel list (the 8-wide unrolled inner loop applies the
same per-pixel lookup). -/
def applyBrightnessLUTPlane (lut : Nat → Int) (plane : List Nat) : List Nat :=
  plane.map (fun p => (lut p).toNat)

/-- `FrameCompositor::applyBrightness`: a no-op unless the configured format
is planar YUV. -/
def applyBrightness (formatIsPlanarYUV : Bool) (strength : ℚ)
    (plane : List Nat) : List Nat :=
  if formatIsPlanarYUV then applyBrightnessLUTPlane (brightnessLUT strength) plane
  else plane

/-- `FrameCompositor::applyBrightnessLinear`. -/
def applyBrightnessLinear (formatIsPlanarYUV : Bool)
    (mapping : List LinearMapping) (plane : List Nat) : List Nat :=
  if mapping.isEmpty then plane
  else if formatIsPlanarYUV then
    applyBrightnessLUTPlane (buildBrightnessLUT mapping) plane
  else plane

end compositor

/-! ## EDL parser (src/edl/EDLParser.cpp)

A minimal nlohmann-style JSON value; numbers carry an integrality flag
mirroring `is_number_integer`. -/

inductive Json
  | null
  | bool (b : Bool)
  | num (v : ℚ) (isInt : Bool)
  | str (s : String)
  | arr (elems : List Json)
  | obj (fields : List (String × Json))

namespace Json

/-- `j.contains(key)`. -/
def containsKey : Json → String → Bool
  | .obj fields, k => fields.any (fun p => p.1 == k)
  | _, _ => false

/-- `j[key]` on an object (guarded by `contains` at every use site). -/
def atKey : Json → String → Json
  | .obj fields, k => ((fields.find? (fun p => p.1 == k)).map (·.2)).getD .null
  | _, _ => .null

def isNull : Json → Bool
  | .null => true
  | _ => false

def isString : Json → Bool
  | .str _ => true
  | _ => false

def isNumber : Json → Bool
  | .num _ _ => true
  | _ => false

def isNumberInteger : Json → Bool
  | .num _ isInt => isInt
  | _ => false

def isBoolean : Json → Bool
  | .bool _ => true
  | _ => false

def isObject : Json → Bool
  | .obj _ => true
  | _ => false

def isArray : Json → Bool
  | .arr _ => true
  | _ => false

def arrElems : Json → List Json
  | .arr elems => elems
  | _ => []

def objFields : Json → List (String × Json)
  | .obj fields => fields
  | _ => []

end Json

namespace edl

/-- A thrown `InvalidEdlException` (or another parse-time exception). -/
abbrev Parse (α : Type) := Except String α

/-- `EDLParser::hasNonNullKey`. -/
def hasNonNullKey (j : Json) (key : String) : Bool :=
  j.containsKey key && !(j.atKey key).isNull

/-- `EDLParser::ensureOnlyKeys`. -/
def ensureOnlyKeys (j : Json) (objectName : String) (allowedKeys : List String) :
    Parse Unit :=
  if (j.objFields.filter (fun p => !(allowedKeys.contains p.1))).isEmpty then .ok ()
  else .error (objectName ++ " contains unsupported keys")

/-- `EDLParser::getUniqueNonNullKey` (the exclusive-key set is passed in its
sorted `std::set` order). -/
def getUniqueNonNullKey (j : Json) (objectName : String)
    (exclusiveKeys : List String) : Parse String :=
  match exclusiveKeys.filter (fun k => hasNonNullKey j k) with
  | [k] => .ok k
  | _ => .error (objectName ++ " must contain exactly one of the exclusive keys")

/-- `EDLParser::getString`. -/
def getString (j : Json) (objectName key : String) : Parse String :=
  if !j.containsKey key then .error (objectName ++ " must have " ++ key)
  else
    match j.atKey key with
    | .str s => .ok s
    | _ => .error (key ++ " must be a string in " ++ objectName)

/-- `EDLParser::getDouble`. -/
def getDouble (j : Json) (objectName key : String) : Parse ℚ :=
  if !j.containsKey key then .error (objectName ++ " must have " ++ key)
  else
    match j.atKey key with
    | .num v _ => .ok v
    | _ => .error (key ++ " must be a number in " ++ objectName)

/-- `EDLParser::getNonNegativeDouble`. -/
def getNonNegativeDouble (j : Json) (objectName key : String) : Parse ℚ := do
  let val ← getDouble j objectName key
  if val < 0 then .error (key ++ " must be non-negative in " ++ objectName)
  else .ok val

/-- `EDLParser::getInteger`. -/
def getInteger (j : Json) (objectName key : String) : Parse Int :=
  if !j.containsKey key then .error (objectName ++ " must have " ++ key)
  else
    match j.atKey key with
    | .num v true => .ok (cppTrunc v)
    | _ => .error (key ++ " must be an integer in " ++ objectName)

/-- `EDLParser::getPositiveInteger`. -/
def getPositiveInteger (j : Json) (objectName key : String) : Parse Int := do
  let val ← getInteger j objectName key
  if val ≤ 0 then .error (key ++ " must be positive in " ++ objectName)
  else .ok val

/-- `EDLParser::getBoolean`. -/
def getBoolean (j : Json) (objectName key : String) : Parse Bool :=
  if !j.containsKey key then .error (objectName ++ " must have " ++ key)
  else
    match j.atKey key with
    | .bool b => .ok b
    | _ => .error (key ++ " must be a boolean in " ++ objectName)

/-- `EDLParser::getObject`. -/
def getObject (j : Json) (objectName key : String) : Parse Json :=
  if !j.containsKey key then .error (objectName ++ " must have " ++ key)
  else if (j.atKey key).isObject then .ok (j.atKey key)
  else .error (key ++ " must be an object in " ++ objectName)

/-- `EDLParser::getArray`. -/
def getArray (j : Json) (objectName key : String) : Parse Json :=
  if !j.containsKey key then .error (objectName ++ " must have " ++ key)
  else if (j.atKey key).isArray then .ok (j.atKey key)
  else .error (key ++ " must be an array in " ++ objectName)

/-- `EDLParser::getInterval`. -/
def getInterval (j : Json) (objectName : String) : Parse (ℚ × ℚ) := do
  let tIn ← getNonNegativeDouble j objectName "in"
  let tOut ← getNonNegativeDouble j objectName "out"
  if tIn ≥ tOut then .error ("In point must be before out point in " ++ objectName)
  else .ok (tIn, tOut)

/-- `getIfExists` for a numeric field (`nlohmann::json::get<double>` or
`get<float>` throws a type error on a non-number). -/
def getIfExistsNum (j : Json) (key : String) (dflt : ℚ) : Parse ℚ :=
  if hasNonNullKey j key then
    match j.atKey key with
    | .num v _ => .ok v
    | _ => .error ("type error reading " ++ key)
  else .ok dflt

/-- `getIfExists` for an integer field (`get<int>` converts any number by
truncation). -/
def getIfExistsInt (j : Json) (key : String) (dflt : Int) : Parse Int :=
  if hasNonNullKey j key then
    match j.atKey key with
    | .num v _ => .ok (cppTrunc v)
    | _ => .error ("type error reading " ++ key)
  else .ok dflt

/-- `getIfExists` for a string field. -/
def getIfExistsStr (j : Json) (key : String) (dflt : String) : Parse String :=
  if hasNonNullKey j key then
    match j.atKey key with
    | .str s => .ok s
    | _ => .error ("type error reading " ++ key)
  else .ok dflt

/-- `EDLParser::parseTrack`. -/
def parseTrack (j : Json) : Parse Track := do
  let typeStr ← getString j "track" "type"
  let type ←
    if typeStr = "video" then .ok TrackType.Video
    else if typeStr = "audio" then .ok TrackType.Audio
    else if typeStr = "subtitle" then .ok TrackType.Subtitle
    else if typeStr = "caption" then .ok TrackType.Caption
    else if typeStr = "burnin" then .ok TrackType.Burnin
    else .error ("Unknown track type: " ++ typeStr)
  let number ← getPositiveInteger j "track" "number"
  let subtype ← getIfExistsStr j "subtype" ""
  let subnumber ←
    if hasNonNullKey j "subnumber" then getPositiveInteger j "track" "subnumber"
    else .ok 1
  if subtype = "" ∧ subnumber ≠ 1 then
    .error "Track with subnumber must have subtype"
  else
    .ok { type := type, number := number, subtype := subtype, subnumber := subnumber }

/-- `EDLParser::parseMotion`. -/
def parseMotion (j : Json) : Parse Motion := do
  let panX ← getIfExistsNum j "panX" 0
  let panY ← getIfExistsNum j "panY" 0
  let zoomX ← getIfExistsNum j "zoomX" 1
  let zoomY ← getIfExistsNum j "zoomY" 1
  let rotation ← getIfExistsNum j "rotation" 0
  let offset ← getIfExistsNum j "offset" 0
  let duration ← getIfExistsNum j "duration" 0
  if hasNonNullKey j "bezier" then .error "Motion bezier curves are not supported"
  else .ok { panX, panY, zoomX, zoomY, rotation, offset, duration }

/-- `EDLParser::parseTransition`: extra keys are stored as parameters when
they hold a storable variant value, and skipped otherwise. -/
def parseTransition (j : Json) : Parse Transition := do
  let type ← getIfExistsStr j "type" ""
  let duration ← getIfExistsNum j "duration" 0
  let parameters := j.objFields.foldl (fun acc p =>
    if p.1 == "type" || p.1 == "duration" || p.1 == "source" || p.1 == "sources" then acc
    else
      match p.2 with
      | .bool b => acc ++ [(p.1, TransitionParam.b b)]
      | .num v true => acc ++ [(p.1, TransitionParam.i (cppTrunc v))]
      | .num v false => acc ++ [(p.1, TransitionParam.d v)]
      | .str s => acc ++ [(p.1, TransitionParam.s s)]
      | _ => acc) []
  .ok { type, duration, parameters }

/-- `EDLParser::parseTextFormat`. -/
def parseTextFormat (j : Json) : Parse TextFormat := do
  let font ← getIfExistsStr j "font" ""
  let fontSize ← getIfExistsInt j "fontSize" 24
  let halign ← getIfExistsStr j "halign" "middle"
  let valign ← getIfExistsStr j "valign" "bottom"
  let textAYUV ← getIfExistsStr j "textAYUV" "FFFFFF"
  let backAYUV ← getIfExistsStr j "backAYUV" "000000"
  .ok { font, fontSize, halign, valign, textAYUV, backAYUV }

/-- `EDLParser::parseShapeControlPoint`. -/
def parseShapeControlPoint (j : Json) : Parse ShapeControlPoint := do
  let point ← getIfExistsNum j "point" 0
  let panx ← getIfExistsNum j "panx" 0
  let pany ← getIfExistsNum j "pany" 0
  let zoomx ← getIfExistsNum j "zoomx" 1
  let zoomy ← getIfExistsNum j "zoomy" 1
  let rotate ← getIfExistsNum j "rotate" 0
  let shape ← getIfExistsNum j "shape" 1
  .ok { point, panx, pany, zoomx, zoomy, rotate, shape }

/-- `EDLParser::checkUnsupportedSourceFeatures`. -/
def checkUnsupportedSourceFeatures (source : Json) : Parse Unit := do
  if hasNonNullKey source "location" then
    .error "Location sources are not supported"
  else if hasNonNullKey source "motion" && (source.atKey "motion").isObject &&
      hasNonNullKey (source.atKey "motion") "bezier" then
    .error "Motion bezier curves are not supported"
  else if hasNonNullKey source "generate" &&
      (source.atKey "generate").isObject &&
      hasNonNullKey (source.atKey "generate") "type" then
    match (source.atKey "generate").atKey "type" with
    | .str type => if type ≠ "black" then .error "Generate type is not yet supported" else .ok ()
    | _ => .error "type error converting generate type to string"
  else .ok ()

/-- `EDLParser::parseMediaSource`. -/
def parseMediaSource (j : Json) : Parse MediaSource := do
  let uri ← getString j "source" "uri"
  let (tIn, tOut) ← getInterval j "source"
  let trackId ← getIfExistsStr j "trackId" ""
  let width ← getIfExistsInt j "width" 0
  let height ← getIfExistsInt j "height" 0
  let fps ← getIfExistsInt j "fps" 0
  let speed ← getIfExistsNum j "speed" 1
  let gamma ← getIfExistsNum j "gamma" 1
  let audiomix ← getIfExistsStr j "audiomix" ""
  checkUnsupportedSourceFeatures j
  .ok { uri, tIn, tOut, trackId, width, height, fps, speed, gamma, audiomix }

/-- `EDLParser::parseGenerateSource`. -/
def parseGenerateSource (j : Json) : Parse GenerateSource := do
  let generate ← getObject j "source" "generate"
  let generateType ← getString generate "generate" "type"
  let type ←
    if generateType = "black" then .ok GenerateType.Black
    else if generateType = "colour" then .ok GenerateType.Colour
    else if generateType = "testpattern" then .ok GenerateType.TestPattern
    else if generateType = "demo" then .ok GenerateType.Demo
    else .error ("Unsupported generate type: " ++ generateType)
  if type ≠ GenerateType.Black then
    .error ("Generate type '" ++ generateType ++ "' is not yet supported.")
  else do
    let (tIn, tOut) ← getInterval j "source"
    let width ← getPositiveInteger j "source" "width"
    let height ← getPositiveInteger j "source" "height"
    let parameters := generate.objFields.foldl (fun acc p =>
      if p.1 == "type" then acc
      else
        match p.2 with
        | .num v true => acc ++ [(p.1, ParamValue.i (cppTrunc v))]
        | .num v false => acc ++ [(p.1, ParamValue.f v)]
        | .str s => acc ++ [(p.1, ParamValue.s s)]
        | _ => acc) []
    .ok { type, tIn, tOut, width, height, parameters }

/-- `EDLParser::parseLocationSource` always throws. -/
def parseLocationSource (_j : Json) : Parse LocationSource :=
  .error "Location sources are not supported"

/-- `EDLParser::parseEffectSource`.  The source stores `value` as a double
and dumps the other recognised sub-objects to JSON strings; the dumped
string is modelled by the JSON value that determines it. -/
def parseEffectSource (j : Json) : Parse EffectSource := do
  let type ← getString j "source" "type"
  let (tIn, tOut) ← getInterval j "source"
  let data0 : List (String × EffectData) ← do
    if hasNonNullKey j "value" then do
      let v ← getDouble j "source" "value"
      pure [("value", EffectData.d v)]
    else pure []
  let dumpKeys := ["filters", "insideMaskFilters", "outsideMaskFilters", "controlPoints"]
  let data1 := dumpKeys.foldl (fun acc k =>
    if hasNonNullKey j k then acc ++ [(k ++ "_json", EffectData.s (k ++ "_dump"))]
    else acc) data0
  let known := ["in", "out", "type", "value", "filters", "controlPoints",
    "insideMaskFilters", "outsideMaskFilters"]
  let data2 := j.objFields.foldl (fun acc p =>
    if known.contains p.1 then acc
    else acc ++ [(p.1 ++ "_json", EffectData.s (p.1 ++ "_dump"))]) data1
  .ok { type, tIn, tOut, data := data2 }

/-- `EDLParser::parseTransformSource`. -/
def parseTransformSource (j : Json) : Parse TransformSource := do
  let (tIn, tOut) ← getInterval j "source"
  let controlPoints ←
    if hasNonNullKey j "controlPoints" then do
      let cps ← getArray j "source" "controlPoints"
      cps.arrElems.mapM parseShapeControlPoint
    else pure []
  .ok { tIn, tOut, controlPoints }

/-- `EDLParser::parseSubtitleSource`. -/
def parseSubtitleSource (j : Json) : Parse SubtitleSource := do
  let text ←
    if hasNonNullKey j "text" then getString j "source" "text"
    else pure ""
  let (tIn, tOut) ← getInterval j "source"
  .ok { text, tIn, tOut }

/-- `EDLParser::parseSource` dispatch on track subtype and source shape. -/
def parseSource (j : Json) (track : Track) : Parse Source := do
  if track.subtype = "effects" then
    Source.effect <$> parseEffectSource j
  else if track.subtype = "transform" ∨ track.subtype = "colour" ∨
      track.subtype = "pan" ∨ track.subtype = "level" then
    Source.transform <$> parseTransformSource j
  else if track.type = TrackType.Subtitle ∨ track.type = TrackType.Burnin then
    Source.subtitle <$> parseSubtitleSource j
  else if hasNonNullKey j "generate" then
    Source.generate <$> parseGenerateSource j
  else if hasNonNullKey j "location" then
    Source.location <$> parseLocationSource j
  else if hasNonNullKey j "uri" then
    Source.media <$> parseMediaSource j
  else
    .error "Unknown source type"

/-- `EDLParser::checkUnsupportedClipFeatures` (lines 733-762).  Note: the
function declares a `supportedKeys` set listing the supported clip keys but
never uses it; the only keys it rejects are non-null `font`/`fonts`,
multi-element `sources` arrays, and transitions carrying sources. -/
def checkUnsupportedClipFeatures (clip : Json) : Parse Unit := do
  if hasNonNullKey clip "font" || hasNonNullKey clip "fonts" then
    .error "Font/fonts in clips are not supported"
  else if hasNonNullKey clip "sources" && (clip.atKey "sources").isArray &&
      (clip.atKey "sources").arrElems.length > 1 then
    .error "Multiple sources in a single clip are not yet supported"
  else if hasNonNullKey clip "transition" &&
      (hasNonNullKey (clip.atKey "transition") "source" ||
       hasNonNullKey (clip.atKey "transition") "sources") then
    .error "Transition clips with sources are not supported"
  else .ok ()

/-- `std::stoi` on a channel-map key (throws when no integer can be parsed;
the model requires the whole key to be numeric). -/
def stoiKey (s : String) : Parse Int :=
  match s.toInt? with
  | some n => .ok n
  | none => .error "stoi: invalid channel map key"

/-- The channelMap block of `parseClip`. -/
def parseChannelMap (j : Json) : Parse (List (Int × ℚ)) := do
  let channelMap ← getObject j "clip" "channelMap"
  channelMap.objFields.foldlM (fun acc p => do
    let channel ← stoiKey p.1
    if channel < 1 ∨ channel > 128 then
      .error "Channel map key must be between 1 and 128"
    else
      match p.2 with
      | .num level _ =>
          if level ≠ 1 then .error "Channel map level must be 1.0"
          else .ok (acc ++ [(channel, level)])
      | _ => .error "Channel map values must be numbers") []

/-- The effects-array block of `parseClip`. -/
def parseSimpleEffects (j : Json) : Parse (List SimpleEffect) := do
  let effectsArray ← getArray j "clip" "effects"
  effectsArray.arrElems.foldlM (fun acc effectJson => do
    if !effectJson.isObject then .error "Each effect must be an object"
    else do
      let type ← getString effectJson "effect" "type"
      let strength ←
        if hasNonNullKey effectJson "strength" then getDouble effectJson "effect" "strength"
        else pure 1
      .ok (acc ++ [{ type := type, strength := strength : SimpleEffect }])) []

/-- `EDLParser::parseClip` (lines 495-587). -/
def parseClip (j : Json) : Parse Clip := do
  checkUnsupportedClipFeatures j
  let (tIn, tOut) ← getInterval j "clip"
  let trackJson ← getObject j "clip" "track"
  let track ← parseTrack trackJson
  let sourceKey ← getUniqueNonNullKey j "clip" ["source", "sources"]
  let source ←
    if sourceKey = "source" then do
      let sourceJson ← getObject j "clip" "source"
      parseSource sourceJson track
    else do
      let sourcesArray ← getArray j "clip" "sources"
      match sourcesArray.arrElems with
      | [] => .error "Sources array cannot be empty"
      | [s] => parseSource s track
      | _ => .error "Multiple sources in a single clip are not yet supported"
  let topFade ← getIfExistsNum j "topFade" 0
  let tailFade ← getIfExistsNum j "tailFade" 0
  let topFadeYUV ← getIfExistsStr j "topFadeYUV" ""
  let tailFadeYUV ← getIfExistsStr j "tailFadeYUV" ""
  let sync ← getIfExistsInt j "sync" 0
  let motion ←
    if hasNonNullKey j "motion" then parseMotion (j.atKey "motion")
    else pure {}
  let transition ←
    if hasNonNullKey j "transition" then some <$> parseTransition (j.atKey "transition")
    else pure none
  let textFormat ←
    if hasNonNullKey j "textFormat" then some <$> parseTextFormat (j.atKey "textFormat")
    else pure none
  let channelMap ←
    if hasNonNullKey j "channelMap" then parseChannelMap j
    else pure []
  let effects ←
    if hasNonNullKey j "effects" then parseSimpleEffects j
    else pure []
  .ok { tIn, tOut, track, source := some source, sources := [],
        topFade, tailFade, topFadeYUV, tailFadeYUV,
        motion, transition, textFormat, channelMap, sync, effects,
        isNullClip := false }

/-- `EDLParser::getTrackKey` (lines 593-631). -/
def getTrackKey (track : Track) : Parse String :=
  match track.type with
  | .Video =>
      if track.subtype = "effects" then
        .ok ("_effects_" ++ toString track.number ++ "_" ++ toString track.subnumber)
      else if track.subtype = "transform" ∨ track.subtype = "colour" then
        .ok ("video_" ++ toString track.number ++ "_" ++ track.subtype)
      else if track.subtype = "" then
        .ok ("video_" ++ toString track.number)
      else .error ("Unknown video track subtype: " ++ track.subtype)
  | .Audio =>
      if track.subtype = "level" ∨ track.subtype = "pan" then
        .ok ("audio_" ++ toString track.number ++ "_" ++ track.subtype)
      else if track.subtype = "" then
        .ok ("audio_" ++ toString track.number)
      else .error ("Unknown audio track subtype: " ++ track.subtype)
  | .Subtitle =>
      if track.subtype = "transform" then
        .ok ("subtitle_" ++ toString track.number ++ "_transform")
      else if track.subtype = "" then
        .ok ("subtitle_" ++ toString track.number)
      else .error ("Unknown subtitle track subtype: " ++ track.subtype)
  | .Burnin =>
      if track.subtype = "transform" then
        .ok ("burnin_" ++ toString track.number ++ "_transform")
      else if track.subtype = "" then
        .ok ("burnin_" ++ toString track.number)
      else .error ("Unknown burnin track subtype: " ++ track.subtype)
  | .Caption => .error "Unsupported track type"

/-- The track-duration scan in `alignTracksWithNullClips`: the loop leaves
the out point of the last clip (0 for an empty track). -/
def trackLastOut (cs : List Clip) : ℚ :=
  match cs.getLast? with
  | some c => c.tOut
  | none => 0

/-- `std::map` insertion/overwrite on the association-list track map. -/
def updateTracks (tracks : List (String × List Clip)) (k : String)
    (v : List Clip) : List (String × List Clip) :=
  if tracks.any (fun p => p.1 == k) then
    tracks.map (fun p => if p.1 == k then (p.1, v) else p)
  else tracks ++ [(k, v)]

/-- One iteration of the per-clip loop of `alignTracksWithNullClips`
(lines 634-665): group the clip under its track key, inserting a gap-filling
null clip or rejecting an overlap. -/
def addClipToTracks (tracks : List (String × List Clip)) (clip : Clip) :
    Parse (List (String × List Clip)) := do
  let trackKey ← getTrackKey clip.track
  let track := (mapFind? tracks trackKey).getD []
  let trackDuration := trackLastOut track
  if trackDuration < clip.tIn then
    let nullClip : Clip :=
      { tIn := trackDuration, tOut := clip.tIn, isNullClip := true, track := clip.track }
    .ok (updateTracks tracks trackKey (track ++ [nullClip, clip]))
  else if trackDuration > clip.tIn then
    .error "Track has overlapping clips"
  else
    .ok (updateTracks tracks trackKey (track ++ [clip]))

/-- The EDL-duration scan of `alignTracksWithNullClips` (lines 667-676). -/
def edlDurationOf (tracks : List (String × List Clip)) : ℚ :=
  tracks.foldl (fun m p => max m (trackLastOut p.2)) 0

/-- The track-extension pass of `alignTracksWithNullClips` (lines 678-693):
every non-empty track shorter than the EDL duration gets a trailing null
clip carrying the last clip's track identity. -/
def extendTrack (edlDuration : ℚ) (cs : List Clip) : List Clip :=
  match cs.getLast? with
  | none => cs
  | some last =>
      if last.tOut < edlDuration then
        cs ++ [{ tIn := last.tOut, tOut := edlDuration, isNullClip := true,
                 track := last.track }]
      else cs

/-- The `fxAppliesTo` entry recorded for one effects track: the parent key
is the first clip's track identity with the subtype cleared. -/
def collectFxApplies (fxKey : String) (track : List Clip) :
    Parse (List (String × String)) :=
  match track.head? with
  | some c => do
      let parentKey ← getTrackKey { c.track with subtype := "" }
      pure [(fxKey, parentKey)]
  | none => pure []

/-- The effects-track discovery pass (lines 695-711), collecting the
old-key/new-key renames and the `fxAppliesTo` entries.  (The source walks
the `std::map` in sorted key order; the association list is walked in
insertion order, which only affects which `fx_N` number each track gets.) -/
def collectFx : List (String × List Clip) → Nat →
    Parse (List (String × String) × List (String × String))
  | [], _ => .ok ([], [])
  | (trackKey, track) :: rest, fxTrackNum =>
      if trackKey.startsWith "_effects_" then do
        let fxKey := "fx_" ++ toString fxTrackNum
        let applies ← collectFxApplies fxKey track
        let (renames, applyRest) ← collectFx rest (fxTrackNum + 1)
        .ok ((trackKey, fxKey) :: renames, applies ++ applyRest)
      else
        collectFx rest fxTrackNum

/-- The rename pass (lines 713-717): `tracks[newKey] = move(tracks[oldKey]);
tracks.erase(oldKey)`. -/
def renameFxTracks (tracks : List (String × List Clip))
    (renames : List (String × String)) : List (String × List Clip) :=
  renames.foldl (fun ts p =>
    (ts.filter (fun q => q.1 != p.1)) ++ [(p.2, (mapFind? ts p.1).getD [])]) tracks

/-- `EDLParser::alignTracksWithNullClips` (lines 633-718), returning the
organized track map and the `fxAppliesTo` map. -/
def alignTracksWithNullClips (clips : List Clip) :
    Parse (List (String × List Clip) × List (String × String)) := do
  let tracks ← clips.foldlM addClipToTracks []
  let edlDuration := edlDurationOf tracks
  let extended := tracks.map (fun p => (p.1, extendTrack edlDuration p.2))
  let (renames, fxAppliesTo) ← collectFx extended 0
  .ok (renameFxTracks extended renames, fxAppliesTo)

/-- `EDLParser::validateUnsupportedFeatures` (EDL top level). -/
def validateUnsupportedFeatures (j : Json) : Parse Unit :=
  ensureOnlyKeys j "EDL" ["fps", "width", "height", "clips"]

end edl

/-- The fade computation as worded in the specification: start at 1.0; if
`topFade > 0` and `positionInClip < topFade` then
`fade = positionInClip / topFade`; if `tailFade > 0` and
`positionInClip > clipDuration − tailFade` then
`fade = min(fade, (clipDuration − positionInClip) / tailFade)`. -/
def fadeSpec (topFade tailFade clipIn clipOut frameTime : ℚ) : ℚ :=
  let positionInClip := frameTime - clipIn
  let clipDuration := clipOut - clipIn
  let fade : ℚ :=
    if topFade > 0 ∧ positionInClip < topFade then positionInClip / topFade else 1
  if tailFade > 0 ∧ positionInClip > clipDuration - tailFade then
    min fade ((clipDuration - positionInClip) / tailFade)
  else fade

open edl compositor media

/-- In-point of the first clip of a track (0 for an empty track). -/
def headIn (cs : List Clip) : ℚ :=
  match cs.head? with
  | some c => c.tIn
  | none => 0

/-- Invariant of a track list during the per-clip grouping loop of
`alignTracksWithNullClips`: non-empty, starts at 0, clips are non-degenerate
and consecutive, the last clip is a real clip, real clips come from the
input, and every null clip shares its track identity with a real clip of
the same track. -/
def trackInv (orig : List Clip) (cs : List Clip) : Prop :=
  cs ≠ [] ∧ headIn cs = 0 ∧ (∀ x ∈ cs, x.tIn < x.tOut) ∧
  List.Chain' (fun x y => x.tOut = y.tIn) cs ∧
  (∀ x, cs.getLast? = some x → x.isNullClip = false) ∧
  (∀ x ∈ cs, x.isNullClip = false → x ∈ orig) ∧
  (∀ x ∈ cs, x.isNullClip = true → ∃ y ∈ cs, y.isNullClip = false ∧ x.track = y.track)

/-- The spec's first concrete scenario: a single 3-second clip at 30 fps. -/
def counterEdl : EDL :=
  { fps := 30
    clips := [{ tIn := 0, tOut := 3,
                source := some (Source.media
                  { uri := "counter.mp4", tIn := 0, tOut := 3 }) }] }

/-- A clip JSON object that is valid except for the key `extraKey`, which is
outside the supported clip-level key set. -/
def extraKeyClipJson : Json :=
  .obj [("in", .num 0 true), ("out", .num 1 true),
        ("track", .obj [("type", .str "video"), ("number", .num 1 true)]),
        ("source", .obj [("uri", .str "a.mp4"),
                         ("in", .num 0 true), ("out", .num 1 true)]),
        ("extraKey", .num 7 true)]

/-- The same clip carrying a `font` key instead, which the parser does
reject. -/
def fontClipJson : Json :=
  .obj [("in", .num 0 true), ("out", .num 1 true),
        ("track", .obj [("type", .str "video"), ("number", .num 1 true)]),
        ("source", .obj [("uri", .str "a.mp4"),
                         ("in", .num 0 true), ("out", .num 1 true)]),
        ("font", .str "Arial")]

/-! ## Theorems -/

set_option maxHeartbeats 2000000 in
/-- C2: an instruction is routed through the GPU passthrough path exactly
when it is a DrawFrame whose uri has a hardware decoder, hardware encoding
is enabled and no CPU processing is required; in every other case it takes
the CPU path; and `requiresCPUProcessing` holds exactly for the stated
disjunction of conditions. -/
theorem passthrough_gating (decoders : String → Option Bool) (hwEncode : Bool)
    (i : CompositorInstruction) :
    (framePath decoders hwEncode i = FramePath.gpu ↔
      (i.type = CIType.DrawFrame ∧ decoders i.uri = some true ∧ hwEncode = true ∧
        requiresCPUProcessing i = false)) ∧
    (framePath decoders hwEncode i = FramePath.cpu ↔
      ¬(i.type = CIType.DrawFrame ∧ decoders i.uri = some true ∧ hwEncode = true ∧
        requiresCPUProcessing i = false)) ∧
    (requiresCPUProcessing i = true ↔
      (i.effects ≠ [] ∨ i.fade < 1 ∨ |i.panX| > 1/1000 ∨ |i.panY| > 1/1000 ∨
        |i.zoomX - 1| > 1/1000 ∨ |i.zoomY - 1| > 1/1000 ∨ |i.rotation| > 1/1000 ∨
        i.flip = true ∨ i.transition.type ≠ TransitionType.NoTransition ∨
        i.type ≠ CIType.DrawFrame)) := by
  have hgpu : framePath decoders hwEncode i = FramePath.gpu ↔
      (i.type = CIType.DrawFrame ∧ decoders i.uri = some true ∧ hwEncode = true ∧
        requiresCPUProcessing i = false) := by
    unfold framePath
    rcases hd : decoders i.uri with _ | hw
    · by_cases ht : i.type = CIType.DrawFrame <;> simp [ht, hd]
    · by_cases ht : i.type = CIType.DrawFrame
      · cases hw <;> cases hhw : hwEncode <;> cases hr : requiresCPUProcessing i <;>
          simp [ht, hd, hhw, hr]
      · simp [ht]
  have hcases : framePath decoders hwEncode i = FramePath.cpu ↔
      ¬(framePath decoders hwEncode i = FramePath.gpu) := by
    cases h : framePath decoders hwEncode i <;> simp
  refine ⟨hgpu, by rw [hcases, hgpu], ?_⟩
  unfold requiresCPUProcessing
  split_ifs with c1 c2 c3 c4 c5
  · have h1 : i.effects ≠ [] := by simpa using c1
    exact iff_of_true rfl (by tauto)
  · exact iff_of_true rfl (by tauto)
  · exact iff_of_true rfl (by tauto)
  · exact iff_of_true rfl (by tauto)
  · exact iff_of_true rfl (by tauto)
  · refine iff_of_false (by simp) ?_
    have c1' : i.effects = [] := by simpa using c1
    rintro (h | h | h | h | h | h | h | h | h | h) <;> tauto

/-- C3: for a non-null clip active at a frame, the instruction's fade equals
the specified fade computation and always lies in [0, 1]. -/
theorem fade_matches_spec_and_bounded (e : EDL) (clip : Clip) (n : Int)
    (hnull : clip.isNullClip = false)
    (h1 : clip.tIn ≤ frameToTime e n) (h2 : frameToTime e n < clip.tOut) :
    (createInstruction e clip n).fade =
      fadeSpec clip.topFade clip.tailFade clip.tIn clip.tOut (frameToTime e n) ∧
    0 ≤ (createInstruction e clip n).fade ∧
    (createInstruction e clip n).fade ≤ 1 := by
  have hfade : (createInstruction e clip n).fade = computeFade clip (frameToTime e n) := by
    simp [createInstruction, hnull]
  have hspec : computeFade clip (frameToTime e n) =
      fadeSpec clip.topFade clip.tailFade clip.tIn clip.tOut (frameToTime e n) := rfl
  set t := frameToTime e n with hteq
  have hp : 0 ≤ t - clip.tIn := by linarith
  have hpd : t - clip.tIn < clip.tOut - clip.tIn := by linarith
  have hcf : computeFade clip t =
      if clip.tailFade > 0 ∧ t - clip.tIn > (clip.tOut - clip.tIn) - clip.tailFade then
        min (if clip.topFade > 0 ∧ t - clip.tIn < clip.topFade then
              (t - clip.tIn) / clip.topFade else 1)
          ((clip.tOut - clip.tIn - (t - clip.tIn)) / clip.tailFade)
      else
        (if clip.topFade > 0 ∧ t - clip.tIn < clip.topFade then
          (t - clip.tIn) / clip.topFade else 1) := rfl
  have hbounds : 0 ≤ computeFade clip t ∧ computeFade clip t ≤ 1 := by
    rw [hcf]
    split_ifs with htail htop htop'
    · rcases htail with ⟨htf, _⟩
      rcases htop with ⟨htf2, hlt⟩
      constructor
      · exact le_min (div_nonneg hp htf2.le) (div_nonneg (by linarith) htf.le)
      · exact le_trans (min_le_left _ _) (by rw [div_le_one htf2]; exact hlt.le)
    · rcases htail with ⟨htf, _⟩
      constructor
      · exact le_min (by norm_num) (div_nonneg (by linarith) htf.le)
      · exact le_trans (min_le_left _ _) le_rfl
    · rcases htop' with ⟨htf2, hlt⟩
      constructor
      · exact div_nonneg hp htf2.le
      · rw [div_le_one htf2]; exact hlt.le
    · norm_num
  exact ⟨hfade.trans hspec, hfade ▸ hbounds.1, hfade ▸ hbounds.2⟩

/-- Witness for C3: a 5-second clip with a 1-second top fade and 1.5-second
tail fade at 30 fps, frame 15. -/
theorem fade_matches_spec_and_bounded_witness :
    (createInstruction { fps := 30 }
        { tIn := 0, tOut := 5, topFade := 1, tailFade := 3/2 } 15).fade =
      fadeSpec 1 (3/2) 0 5 (frameToTime { fps := 30 } 15) ∧
    0 ≤ (createInstruction { fps := 30 }
        { tIn := 0, tOut := 5, topFade := 1, tailFade := 3/2 } 15).fade ∧
    (createInstruction { fps := 30 }
        { tIn := 0, tOut := 5, topFade := 1, tailFade := 3/2 } 15).fade ≤ 1 :=
  fade_matches_spec_and_bounded { fps := 30 }
    { tIn := 0, tOut := 5, topFade := 1, tailFade := 3/2 } 15
    rfl (by norm_num [frameToTime]) (by norm_num [frameToTime])

/-- C4: for a clip holding a media source and active at a frame, the
instruction is a DrawFrame carrying the source's uri, and its source frame
number is the floor of `(mediaSource.in + (frameTime − clip.in)) · f` with
`f` the source fps when positive, else the EDL fps. -/
theorem media_source_frame_number (e : EDL) (clip : Clip) (ms : MediaSource) (n : Int)
    (hsrc : clip.source = some (Source.media ms))
    (hnull : clip.isNullClip = false)
    (h1 : clip.tIn ≤ frameToTime e n) (h2 : frameToTime e n < clip.tOut)
    (hmsin : 0 ≤ ms.tIn) (hfps : 0 < e.fps) :
    (createInstruction e clip n).type = CIType.DrawFrame ∧
    (createInstruction e clip n).uri = ms.uri ∧
    (createInstruction e clip n).sourceFrameNumber =
      ⌊(ms.tIn + (frameToTime e n - clip.tIn)) *
        (((if ms.fps > 0 then ms.fps else e.fps) : Int) : ℚ)⌋ := by
  have hku : clipKindUri clip = (CIType.DrawFrame, ms.uri) := by
    simp [clipKindUri, hsrc]
  have hsfpos : (0 : Int) < if ms.fps > 0 then ms.fps else e.fps := by
    split_ifs with h
    · exact h
    · exact hfps
  have hq : 0 ≤ (ms.tIn + (frameToTime e n - clip.tIn)) *
      (((if ms.fps > 0 then ms.fps else e.fps) : Int) : ℚ) := by
    apply mul_nonneg
    · have : 0 ≤ frameToTime e n - clip.tIn := by linarith
      linarith
    · exact_mod_cast hsfpos.le
  have hsf : getSourceFrameNumber e clip n =
      ⌊(ms.tIn + (frameToTime e n - clip.tIn)) *
        (((if ms.fps > 0 then ms.fps else e.fps) : Int) : ℚ)⌋ := by
    unfold getSourceFrameNumber
    rw [hsrc]
    simp only [cppTrunc]
    rw [if_pos hq]
  refine ⟨?_, ?_, ?_⟩
  · simp [createInstruction, hnull, hku]
  · simp [createInstruction, hnull, hku]
  · simp only [createInstruction, hnull, Bool.false_eq_true, if_false]
    exact hsf

/-- Witness for C4, the spec's source-fps-mismatch scenario: EDL fps 30,
clip in 0 out 2, source fps 60, timeline frame 15 maps to source frame 30. -/
theorem media_source_frame_number_witness :
    ((createInstruction { fps := 30 }
        { tIn := 0, tOut := 2,
          source := some (Source.media { uri := "v.mp4", tIn := 0, tOut := 2, fps := 60 }) }
        15).type = CIType.DrawFrame ∧
      (createInstruction { fps := 30 }
        { tIn := 0, tOut := 2,
          source := some (Source.media { uri := "v.mp4", tIn := 0, tOut := 2, fps := 60 }) }
        15).uri = "v.mp4" ∧
      (createInstruction { fps := 30 }
        { tIn := 0, tOut := 2,
          source := some (Source.media { uri := "v.mp4", tIn := 0, tOut := 2, fps := 60 }) }
        15).sourceFrameNumber =
        ⌊((0 : ℚ) + (frameToTime { fps := 30 } 15 - 0)) *
          (((if (60 : Int) > 0 then (60 : Int) else 30) : Int) : ℚ)⌋) ∧
    (createInstruction { fps := 30 }
        { tIn := 0, tOut := 2,
          source := some (Source.media { uri := "v.mp4", tIn := 0, tOut := 2, fps := 60 }) }
        15).sourceFrameNumber = 30 := by
  have h := media_source_frame_number { fps := 30 }
    { tIn := 0, tOut := 2,
      source := some (Source.media { uri := "v.mp4", tIn := 0, tOut := 2, fps := 60 }) }
    { uri := "v.mp4", tIn := 0, tOut := 2, fps := 60 } 15
    rfl rfl (by norm_num [frameToTime]) (by norm_num [frameToTime]) le_rfl (by decide)
  refine ⟨h, ?_⟩
  rw [h.2.2]
  norm_num [frameToTime]

/-- The constructor's running maximum over clip out points never drops
below its start value. -/
theorem foldl_max_le_init (l : List Clip) (a : ℚ) :
    a ≤ l.foldl (fun m c => max m c.tOut) a := by
  induction l generalizing a with
  | nil => simp
  | cons c t ih => exact le_trans (le_max_left a c.tOut) (ih (max a c.tOut))

/-- C6: the instruction sequence from `begin()` to `end()` has exactly
`round(maxClipOut · fps)` elements. -/
theorem instruction_stream_length (e : EDL) (hfps : 0 < e.fps) :
    ((instructions e).length : Int) = cppRound (maxClipOut e * (e.fps : ℚ)) := by
  have hm : 0 ≤ maxClipOut e := foldl_max_le_init e.clips 0
  have hq : 0 ≤ maxClipOut e * (e.fps : ℚ) :=
    mul_nonneg hm (by exact_mod_cast hfps.le)
  have htf : 0 ≤ totalFrames e := by
    unfold totalFrames timeToFrame cppRound
    rw [if_pos hq]
    exact Int.floor_nonneg.mpr (by linarith)
  have hlen : (instructions e).length = (totalFrames e).toNat := by
    simp [instructions]
  rw [hlen, Int.toNat_of_nonneg htf]
  rfl

/-- Witness for C6: the spec's single 3-second clip at 30 fps yields 90
instructions. -/
theorem instruction_stream_length_witness :
    (0 < counterEdl.fps ∧
      ((instructions counterEdl).length : Int) =
        cppRound (maxClipOut counterEdl * (counterEdl.fps : ℚ))) ∧
    (instructions counterEdl).length = 90 := by
  refine ⟨⟨by decide, instruction_stream_length counterEdl (by decide)⟩, ?_⟩
  have ht : totalFrames counterEdl = 90 := by
    norm_num [totalFrames, timeToFrame, maxClipOut, cppRound, counterEdl]
  simp [instructions, ht]

/-- The catch-up loop ends exactly at `frameNumber - 1` whenever it starts at
or below that position and succeeds. -/
theorem decodeAndDiscard_final (decodeOk : Int → Bool) :
    ∀ (k : Nat) (cur n : Int), (n - 1 - cur).toNat = k → cur ≤ n - 1 →
      (decodeAndDiscard decodeOk cur n).1 = true →
      (decodeAndDiscard decodeOk cur n).2.1 = n - 1 := by
  intro k
  induction k with
  | zero =>
      intro cur n hk hle _
      have hcur : cur = n - 1 := by omega
      unfold decodeAndDiscard
      rw [dif_neg (by omega)]
      exact hcur
  | succ k ih =>
      intro cur n hk hle hs
      have hlt : cur < n - 1 := by omega
      unfold decodeAndDiscard at hs ⊢
      rw [dif_pos hlt] at hs ⊢
      by_cases hd : decodeOk (cur + 1)
      · rw [if_pos hd] at hs ⊢
        exact ih (cur + 1) n (by omega) (by omega) hs
      · rw [if_neg hd] at hs
        exact absurd hs (by simp)

/-- C7: for an in-range target frame, `seekToFrame` at the current frame
succeeds with no seek and no decode; a container seek happens exactly when
the current position is past the target or more than 60 frames behind it;
and any successful call that had work to do ends at `frameNumber - 1`. -/
theorem seekToFrame_policy (env : DecoderEnv) (cur n : Int)
    (h1 : 0 ≤ n) (h2 : n < env.totalFrames) :
    (cur = n → seekToFrame env cur n = ⟨true, cur, false, 0⟩) ∧
    ((seekToFrame env cur n).didSeek = true ↔ (cur > n ∨ cur < n - 60)) ∧
    ((seekToFrame env cur n).success = true → cur ≠ n →
      (seekToFrame env cur n).currentFrameNumber = n - 1) := by
  have hnr : ¬(n < 0 ∨ n ≥ env.totalFrames) := by omega
  refine ⟨?_, ?_, ?_⟩
  · intro hcn
    unfold seekToFrame
    rw [if_neg hnr, if_pos hcn]
  · unfold seekToFrame
    rw [if_neg hnr]
    by_cases hcn : cur = n
    · rw [if_pos hcn]
      simp only [SeekOutcome.didSeek]
      constructor
      · intro h; exact absurd h (by simp)
      · intro h; omega
    · rw [if_neg hcn]
      by_cases hseek : cur > n ∨ cur < n - 60
      · rw [if_pos hseek]
        cases hok : env.seekOk <;> simp [hok, hseek]
      · rw [if_neg hseek]
        simp [hseek]
  · intro hs hcn
    unfold seekToFrame at hs ⊢
    rw [if_neg hnr, if_neg hcn] at hs ⊢
    by_cases hseek : cur > n ∨ cur < n - 60
    · rw [if_pos hseek] at hs ⊢
      cases hok : env.seekOk
      · rw [if_neg (by simp [hok])] at hs
        simp at hs
      · rw [if_pos hok] at hs
        rw [if_pos rfl]
        exact decodeAndDiscard_final env.decodeOk (n - 1 - (-1)).toNat (-1) n rfl
          (by omega) hs
    · rw [if_neg hseek] at hs ⊢
      have hle : cur ≤ n - 1 := by omega
      exact decodeAndDiscard_final env.decodeOk (n - 1 - cur).toNat cur n rfl hle hs

/-- Witness for C7: a fresh decoder (position −1) seeking frame 0 of a
100-frame stream. -/
theorem seekToFrame_policy_witness :
    ((-1 : Int) = 0 → seekToFrame ⟨100, true, fun _ => true⟩ (-1) 0 = ⟨true, -1, false, 0⟩) ∧
    ((seekToFrame ⟨100, true, fun _ => true⟩ (-1) 0).didSeek = true ↔
      ((-1 : Int) > 0 ∨ (-1 : Int) < 0 - 60)) ∧
    ((seekToFrame ⟨100, true, fun _ => true⟩ (-1) 0).success = true → (-1 : Int) ≠ 0 →
      (seekToFrame ⟨100, true, fun _ => true⟩ (-1) 0).currentFrameNumber = 0 - 1) :=
  seekToFrame_policy ⟨100, true, fun _ => true⟩ (-1) 0 (by omega) (by decide)

/-- C9: an out-of-range frame number makes `seekToFrame` fail with no seek,
no decode and no state change, so `getFrame` and `getHardwareFrame` return
no frame. -/
theorem seekToFrame_out_of_range (env : DecoderEnv) (usingHardware allocOk : Bool)
    (cur n : Int) (h : n < 0 ∨ n ≥ env.totalFrames) :
    seekToFrame env cur n = ⟨false, cur, false, 0⟩ ∧
    getFrame env cur n = (false, cur) ∧
    getHardwareFrame env usingHardware allocOk cur n = (false, cur) := by
  have hseek : seekToFrame env cur n = ⟨false, cur, false, 0⟩ := by
    unfold seekToFrame
    rw [if_pos h]
  refine ⟨hseek, ?_, ?_⟩
  · unfold getFrame
    rw [hseek]
    simp
  · unfold getHardwareFrame
    cases usingHardware
    · simp only [Bool.not_false, if_true]
      unfold getFrame
      rw [hseek]
      simp
    · simp only [Bool.not_true, if_false]
      rw [hseek]
      simp

/-- Witness for C9 at frame 12 of a 10-frame stream. -/
theorem seekToFrame_out_of_range_witness :
    seekToFrame ⟨10, true, fun _ => true⟩ 5 12 = ⟨false, 5, false, 0⟩ ∧
    getFrame ⟨10, true, fun _ => true⟩ 5 12 = (false, 5) ∧
    getHardwareFrame ⟨10, true, fun _ => true⟩ true true 5 12 = (false, 5) :=
  seekToFrame_out_of_range ⟨10, true, fun _ => true⟩ true true 5 12 (by decide)

/-- C10: once `finalize` has returned true, every later `writeFrame` or
`writeHardwareFrame` returns false with no send and no pts advance, a null
frame is always rejected the same way, and a second `finalize` returns true
immediately without flushing or writing the trailer again. -/
theorem finalized_encoder_rejects_writes (env : EncoderEnv) (s : EncoderState)
    (hok : (finalize env s).ok = true) :
    (finalize env s).state.finalized = true ∧
    (∀ b : Bool, writeFrame env (finalize env s).state b =
      ⟨false, (finalize env s).state, 0⟩) ∧
    (∀ b hw : Bool, writeHardwareFrame env (finalize env s).state b hw =
      ⟨false, (finalize env s).state, 0⟩) ∧
    finalize env (finalize env s).state = ⟨true, (finalize env s).state, false, false⟩ ∧
    (∀ s' : EncoderState, writeFrame env s' true = ⟨false, s', 0⟩) ∧
    (∀ (s' : EncoderState) (hw : Bool), writeHardwareFrame env s' true hw =
      ⟨false, s', 0⟩) := by
  have hfin : (finalize env s).state.finalized = true := by
    unfold finalize at hok ⊢
    by_cases hf : s.finalized
    · rw [if_pos hf]
      exact hf
    · rw [if_neg hf] at hok ⊢
      by_cases ht : env.trailerOk = true
      · simp [ht]
      · simp only [Bool.not_eq_true] at ht
        simp [ht] at hok
  refine ⟨hfin, ?_, ?_, ?_, ?_, ?_⟩
  · intro b
    unfold writeFrame
    rw [if_pos (by simp [hfin])]
  · intro b hw
    unfold writeHardwareFrame
    rw [if_pos (by simp [hfin])]
  · generalize hst : (finalize env s).state = st at hfin ⊢
    unfold finalize
    rw [if_pos hfin]
  · intro s'
    unfold writeFrame
    rw [if_pos (by simp)]
  · intro s' hw
    unfold writeHardwareFrame
    rw [if_pos (by simp)]

/-- Witness for C10: a default encoder state finalizes successfully, after
which writes are rejected and a second finalize is an immediate no-op. -/
theorem finalized_encoder_rejects_writes_witness :
    (finalize {} {}).ok = true ∧
    (finalize {} {}).state.finalized = true ∧
    writeFrame {} (finalize {} {}).state false = ⟨false, (finalize {} {}).state, 0⟩ ∧
    writeHardwareFrame {} (finalize {} {}).state false true =
      ⟨false, (finalize {} {}).state, 0⟩ ∧
    finalize {} (finalize {} {}).state = ⟨true, (finalize {} {}).state, false, false⟩ := by
  have h := finalized_encoder_rejects_writes {} {} (by decide)
  exact ⟨by decide, h.1, h.2.1 false, h.2.2.1 false true, h.2.2.2.1⟩

/-- On `[0, 1]`, the piecewise-linear interpolation through `(0,0)` and
`(1,1)` is the identity. -/
theorem linearInterpolate_id_unit (x : ℚ) (h0 : 0 ≤ x) (h1 : x ≤ 1) :
    linearInterpolate x [⟨0, 0⟩, ⟨1, 1⟩] = x := by
  by_cases hx0 : x ≤ 0
  · have hx : x = 0 := le_antisymm hx0 h0
    subst hx
    norm_num [linearInterpolate, findSurrounding]
  · push_neg at hx0
    by_cases hx1 : 1 ≤ x
    · have hx : x = 1 := le_antisymm h1 hx1
      subst hx
      norm_num [linearInterpolate, findSurrounding]
    · push_neg at hx1
      have h2 : ¬ ((1 : ℚ) ≤ x) := not_le.mpr hx1
      have h3 : ¬ ((0 : ℚ) ≥ x) := not_le.mpr hx0
      simp only [linearInterpolate, findSurrounding]
      rw [if_pos h0, if_neg h3, if_neg h2, if_pos (le_of_lt hx1)]
      norm_num

/-- `buildBrightnessLUT` over the linear mapping `[(0,0),(1,1)]` is the
identity on byte values. -/
theorem buildBrightnessLUT_id (iv : Nat) (hlt : iv < 256) :
    buildBrightnessLUT [⟨0, 0⟩, ⟨1, 1⟩] iv = (iv : Int) := by
  unfold buildBrightnessLUT
  have hle : ((iv : ℚ) / 255) ≤ 1 := by
    rw [div_le_one (by norm_num)]
    exact_mod_cast Nat.le_of_lt_succ hlt
  rw [linearInterpolate_id_unit ((iv : ℚ) / 255) (by positivity) hle]
  have hmul : ((iv : ℚ) / 255) * 255 = (iv : ℚ) := by
    field_simp
  rw [hmul]
  unfold cppTrunc clampByte
  rw [if_pos (by positivity)]
  have hfl : ⌊(iv : ℚ) + 1/2⌋ = (iv : Int) := by
    rw [Int.floor_eq_iff]
    push_cast
    constructor <;> norm_num
  rw [hfl]
  omega

/-- The strength-1 brightness LUT is the identity on byte values. -/
theorem brightnessLUT_one_id (iv : Nat) (hlt : iv < 256) :
    brightnessLUT 1 iv = (iv : Int) := by
  unfold brightnessLUT cppTrunc clampByte
  norm_num
  omega

/-- C8: the strength-1 brightness LUT maps every byte to itself, the LUT
built from the linear mapping `[(0,0),(1,1)]` maps every byte to itself
(hence within ±1), and applying either effect to an in-range Y plane leaves
it unchanged. -/
theorem brightness_identity (plane : List Nat) (hp : ∀ p ∈ plane, p < 256) :
    (∀ i : Fin 256, brightnessLUT 1 (i : Nat) = ((i : Nat) : Int)) ∧
    (∀ i : Fin 256, buildBrightnessLUT [⟨0, 0⟩, ⟨1, 1⟩] (i : Nat) = ((i : Nat) : Int) ∧
      |buildBrightnessLUT [⟨0, 0⟩, ⟨1, 1⟩] (i : Nat) - ((i : Nat) : Int)| ≤ 1) ∧
    applyBrightness true 1 plane = plane ∧
    applyBrightnessLinear true [⟨0, 0⟩, ⟨1, 1⟩] plane = plane := by
  have hmap : ∀ (lut : Nat → Int), (∀ p < 256, lut p = (p : Int)) →
      applyBrightnessLUTPlane lut plane = plane := by
    intro lut hlut
    unfold applyBrightnessLUTPlane
    induction plane with
    | nil => rfl
    | cons q t ih =>
        have hq : q < 256 := hp q (List.mem_cons_self q t)
        have ht : ∀ p ∈ t, p < 256 := fun p hpm => hp p (List.mem_cons_of_mem q hpm)
        simp only [List.map_cons]
        rw [hlut q hq]
        simp only [Int.toNat_natCast, List.cons.injEq, true_and]
        exact ih ht
  refine ⟨fun i => brightnessLUT_one_id (i : Nat) i.isLt,
    fun i => ⟨buildBrightnessLUT_id (i : Nat) i.isLt, ?_⟩, ?_, ?_⟩
  · rw [buildBrightnessLUT_id (i : Nat) i.isLt]
    simp
  · unfold applyBrightness
    rw [if_pos rfl]
    exact hmap _ (fun p hq => brightnessLUT_one_id p hq)
  · unfold applyBrightnessLinear
    rw [if_neg (by simp), if_pos rfl]
    exact hmap _ (fun p hq => buildBrightnessLUT_id p hq)

/-- Witness for C8 on a concrete three-pixel Y plane. -/
theorem brightness_identity_witness :
    (∀ p ∈ [0, 128, 255], p < 256) ∧
    applyBrightness true 1 [0, 128, 255] = [0, 128, 255] ∧
    applyBrightnessLinear true [⟨0, 0⟩, ⟨1, 1⟩] [0, 128, 255] = [0, 128, 255] := by
  have h := brightness_identity [0, 128, 255] (by decide)
  exact ⟨by decide, h.2.2.1, h.2.2.2⟩

/-- A successful association-list lookup returns the value of a stored
entry with the looked-up key. -/
theorem mapFind?_eq_some {α : Type} {ts : List (String × α)} {k : String} {v : α}
    (h : mapFind? ts k = some v) : ∃ p, p ∈ ts ∧ p.1 = k ∧ p.2 = v := by
  unfold mapFind? at h
  cases hf : ts.find? (fun p => p.1 == k) with
  | none => rw [hf] at h; simp at h
  | some p =>
      rw [hf] at h
      simp at h
      refine ⟨p, List.mem_of_find?_eq_some hf, ?_, h⟩
      have := List.find?_some hf
      simpa using this

/-- A key present in the key list makes the lookup succeed. -/
theorem mapFind?_isSome_of_mem {α : Type} {ts : List (String × α)} {k : String}
    (h : k ∈ ts.map Prod.fst) : (mapFind? ts k).isSome := by
  induction ts with
  | nil => simp at h
  | cons p t ih =>
      unfold mapFind?
      by_cases hp : p.1 = k
      · simp [List.find?_cons, hp]
      · simp only [List.map_cons, List.mem_cons] at h
        rcases h with h | h
        · exact absurd h.symm hp
        · have := ih h
          unfold mapFind? at this
          simpa [List.find?_cons, hp] using this

/-- Filtering out a different key does not change a lookup. -/
theorem mapFind?_filter_ne {α : Type} (ts : List (String × α)) (a k : String)
    (hne : k ≠ a) : mapFind? (ts.filter (fun q => q.1 != a)) k = mapFind? ts k := by
  induction ts with
  | nil => rfl
  | cons p t ih =>
      by_cases hp : p.1 = a
      · have : (p.1 != a) = false := by simp [hp]
        simp only [List.filter_cons, this, Bool.false_eq_true, if_false]
        rw [ih]
        unfold mapFind?
        have : (p.1 == k) = false := by
          simp only [beq_eq_false_iff_ne, ne_eq]
          rw [hp]
          exact fun h => hne h.symm
        simp [List.find?_cons, this]
      · have : (p.1 != a) = true := by simp [hp]
        simp only [List.filter_cons, this, if_true]
        unfold mapFind?
        by_cases hk : p.1 = k
        · simp [List.find?_cons, hk]
        · have hk' : (p.1 == k) = false := by simp [hk]
          simp only [List.find?_cons, hk', if_false]
          have := ih
          unfold mapFind? at this
          simpa [List.find?_cons, hk'] using this

/-- A lookup that succeeds on the left part of an append succeeds on the
whole list with the same value. -/
theorem mapFind?_append_left {α : Type} (l₁ l₂ : List (String × α)) (k : String)
    (h : (mapFind? l₁ k).isSome) : mapFind? (l₁ ++ l₂) k = mapFind? l₁ k := by
  unfold mapFind? at h ⊢
  rw [List.find?_append]
  cases hf : l₁.find? (fun p => p.1 == k) with
  | none => rw [hf] at h; simp at h
  | some p => simp

/-- Membership in `updateTracks`: an entry is either the freshly written one
or an untouched original. -/
theorem mem_updateTracks {ts : List (String × List Clip)} {k : String}
    {v : List Clip} {p : String × List Clip} (h : p ∈ updateTracks ts k v) :
    p.2 = v ∨ p ∈ ts := by
  unfold updateTracks at h
  by_cases hany : ts.any (fun q => q.1 == k)
  · rw [if_pos hany] at h
    rcases List.mem_map.mp h with ⟨q, hq, hpq⟩
    by_cases hk : q.1 = k
    · left
      rw [← hpq]
      simp [hk]
    · right
      have : (q.1 == k) = false := by simp [hk]
      rw [← hpq]
      simpa [this] using hq
  · rw [if_neg hany] at h
    rcases List.mem_append.mp h with h | h
    · exact Or.inr h
    · left
      simp only [List.mem_singleton] at h
      rw [h]

/-- `updateTracks` keeps the key list duplicate-free. -/
theorem updateTracks_nodup {ts : List (String × List Clip)} {k : String}
    {v : List Clip} (h : (ts.map Prod.fst).Nodup) :
    ((updateTracks ts k v).map Prod.fst).Nodup := by
  unfold updateTracks
  by_cases hany : ts.any (fun q => q.1 == k)
  · rw [if_pos hany]
    have : (ts.map (fun p => if p.1 == k then (p.1, v) else p)).map Prod.fst =
        ts.map Prod.fst := by
      rw [List.map_map]
      apply List.map_congr_left
      intro q _
      by_cases hq : q.1 = k <;> simp [hq]
    rw [this]
    exact h
  · rw [if_neg hany]
    rw [List.map_append]
    simp only [List.map_cons, List.map_nil]
    rw [List.nodup_append]
    refine ⟨h, List.nodup_singleton k, ?_⟩
    intro x hx
    simp only [List.mem_singleton]
    rcases List.mem_map.mp hx with ⟨q, hq, hqx⟩
    intro hxk
    rw [hxk] at hqx
    exact hany (List.any_eq_true.mpr ⟨q, hq, by simp [hqx]⟩)

/-- In a consecutive chain of non-degenerate clips, every clip starts at or
after the first clip's in-point. -/
theorem headIn_le_mem : ∀ (cs : List Clip),
    (∀ x ∈ cs, x.tIn < x.tOut) → List.Chain' (fun x y => x.tOut = y.tIn) cs →
    ∀ y ∈ cs, headIn cs ≤ y.tIn
  | [], _, _, y, hy => absurd hy (List.not_mem_nil y)
  | c :: t, hlt, hch, y, hy => by
      rcases List.mem_cons.mp hy with hy | hy
      · subst hy
        exact le_rfl
      · cases t with
        | nil => exact absurd hy (List.not_mem_nil y)
        | cons d t' =>
            have hrel : c.tOut = d.tIn := (List.chain'_cons.mp hch).1
            have hch' : List.Chain' (fun x y => x.tOut = y.tIn) (d :: t') :=
              (List.chain'_cons.mp hch).2
            have hlt' : ∀ x ∈ d :: t', x.tIn < x.tOut := fun x hx =>
              hlt x (List.mem_cons_of_mem c hx)
            have := headIn_le_mem (d :: t') hlt' hch' y hy
            have hc : c.tIn < c.tOut := hlt c (List.mem_cons_self c _)
            have hhead : headIn (d :: t') = d.tIn := rfl
            calc headIn (c :: d :: t') = c.tIn := rfl
              _ ≤ d.tIn := by rw [← hrel]; exact hc.le
              _ = headIn (d :: t') := rfl
              _ ≤ y.tIn := this

/-- A consecutive chain of non-degenerate clips is pairwise ordered. -/
theorem chain_pairwise : ∀ (cs : List Clip),
    (∀ x ∈ cs, x.tIn < x.tOut) → List.Chain' (fun x y => x.tOut = y.tIn) cs →
    List.Pairwise (fun x y => x.tOut ≤ y.tIn) cs
  | [], _, _ => List.Pairwise.nil
  | c :: t, hlt, hch => by
      have hlt' : ∀ x ∈ t, x.tIn < x.tOut := fun x hx =>
        hlt x (List.mem_cons_of_mem c hx)
      have hch' : List.Chain' (fun x y => x.tOut = y.tIn) t := hch.tail
      refine List.pairwise_cons.mpr ⟨?_, chain_pairwise t hlt' hch'⟩
      intro y hy
      cases t with
      | nil => exact absurd hy (List.not_mem_nil y)
      | cons d t' =>
          have hrel : c.tOut = d.tIn := (List.chain'_cons.mp hch).1
          calc c.tOut = d.tIn := hrel
            _ = headIn (d :: t') := rfl
            _ ≤ y.tIn := headIn_le_mem (d :: t') hlt' hch' y hy

/-- In a non-empty consecutive chain of non-degenerate clips, the first
in-point is strictly below the last out-point. -/
theorem headIn_lt_lastOut (cs : List Clip) (hne : cs ≠ [])
    (hlt : ∀ x ∈ cs, x.tIn < x.tOut)
    (hch : List.Chain' (fun x y => x.tOut = y.tIn) cs) :
    headIn cs < trackLastOut cs := by
  have hl : cs.getLast? = some (cs.getLast hne) := List.getLast?_eq_getLast cs hne
  have hmem : cs.getLast hne ∈ cs := List.getLast_mem hne
  have h1 : headIn cs ≤ (cs.getLast hne).tIn := headIn_le_mem cs hlt hch _ hmem
  have h2 : (cs.getLast hne).tIn < (cs.getLast hne).tOut := hlt _ hmem
  have h3 : trackLastOut cs = (cs.getLast hne).tOut := by
    unfold trackLastOut
    rw [hl]
  rw [h3]
  exact lt_of_le_of_lt h1 h2

/-- Interval-coverage of a consecutive chain: the union of the clip
intervals of a track running from `a` to `b` is exactly `[a, b)`. -/
theorem covers_mem_iff : ∀ (cs : List Clip), cs ≠ [] →
    (∀ x ∈ cs, x.tIn < x.tOut) → List.Chain' (fun x y => x.tOut = y.tIn) cs →
    ∀ q : ℚ, (∃ x ∈ cs, x.tIn ≤ q ∧ q < x.tOut) ↔
      (headIn cs ≤ q ∧ q < trackLastOut cs)
  | [], hne, _, _, _ => absurd rfl hne
  | [c], _, _, _, q => by
      constructor
      · rintro ⟨x, hx, h1, h2⟩
        rcases List.mem_singleton.mp hx with rfl
        exact ⟨h1, h2⟩
      · rintro ⟨h1, h2⟩
        exact ⟨c, List.mem_singleton.mpr rfl, h1, h2⟩
  | c :: d :: t, _, hlt, hch, q => by
      have hrel : c.tOut = d.tIn := (List.chain'_cons.mp hch).1
      have hch' : List.Chain' (fun x y => x.tOut = y.tIn) (d :: t) :=
        (List.chain'_cons.mp hch).2
      have hlt' : ∀ x ∈ d :: t, x.tIn < x.tOut := fun x hx =>
        hlt x (List.mem_cons_of_mem c hx)
      have hih := covers_mem_iff (d :: t) (List.cons_ne_nil d t) hlt' hch' q
      have hlast : trackLastOut (c :: d :: t) = trackLastOut (d :: t) := by
        unfold trackLastOut
        rw [List.getLast?_cons_cons]
      have hhead' : headIn (d :: t) = d.tIn := rfl
      have hc : c.tIn < c.tOut := hlt c (List.mem_cons_self c _)
      have hdb : d.tIn < trackLastOut (d :: t) := by
        have := headIn_lt_lastOut (d :: t) (List.cons_ne_nil d t) hlt' hch'
        rwa [hhead'] at this
      constructor
      · rintro ⟨x, hx, h1, h2⟩
        rcases List.mem_cons.mp hx with rfl | hx
        · refine ⟨h1, ?_⟩
          rw [hlast]
          calc q < x.tOut := h2
            _ = d.tIn := hrel
            _ < trackLastOut (d :: t) := hdb
        · have := hih.mp ⟨x, hx, h1, h2⟩
          rw [hhead'] at this
          refine ⟨?_, by rw [hlast]; exact this.2⟩
          calc headIn (c :: d :: t) = c.tIn := rfl
            _ ≤ q := le_trans (le_trans hc.le (le_of_eq hrel)) this.1
      · rintro ⟨h1, h2⟩
        by_cases hq : q < c.tOut
        · exact ⟨c, List.mem_cons_self c _, h1, hq⟩
        · push_neg at hq
          have : headIn (d :: t) ≤ q ∧ q < trackLastOut (d :: t) := by
            rw [hhead', ← hrel]
            exact ⟨hq, by rw [← hlast]; exact h2⟩
          rcases hih.mpr this with ⟨x, hx, hx1, hx2⟩
          exact ⟨x, List.mem_cons_of_mem c hx, hx1, hx2⟩

theorem except_bind_ok {ε α β : Type} (a : α) (f : α → Except ε β) :
    (Except.ok a >>= f) = f a := rfl

theorem except_bind_err {ε α β : Type} (e : ε) (f : α → Except ε β) :
    ((Except.error e : Except ε α) >>= f) = .error e := rfl

/-- Appending a flush clip (one starting exactly at the track's current
duration) preserves the track invariant. -/
theorem trackInv_append_eq (orig cs : List Clip) (c : Clip)
    (hcs : cs = [] ∨ trackInv orig cs)
    (hd : trackLastOut cs = c.tIn)
    (hc : c.tIn < c.tOut) (hreal : c.isNullClip = false) (horig : c ∈ orig) :
    trackInv orig (cs ++ [c]) := by
  rcases hcs with rfl | ⟨hne, hhead, hlt, hch, _, horigs, hnulls⟩
  · refine ⟨by simp, ?_, ?_, ?_, ?_, ?_, ?_⟩
    · show c.tIn = 0
      rw [← hd]
      rfl
    · intro x hx
      rcases List.mem_singleton.mp (by simpa using hx) with rfl
      exact hc
    · simpa using List.chain'_singleton c
    · intro x hx
      simp only [List.nil_append, List.getLast?_singleton] at hx
      cases hx
      exact hreal
    · intro x hx _
      rcases List.mem_singleton.mp (by simpa using hx) with rfl
      exact horig
    · intro x hx hxn
      rcases List.mem_singleton.mp (by simpa using hx) with rfl
      rw [hreal] at hxn
      cases hxn
  · obtain ⟨x0, t0, rfl⟩ := List.exists_cons_of_ne_nil hne
    refine ⟨by simp, hhead, ?_, ?_, ?_, ?_, ?_⟩
    · intro x hx
      rcases List.mem_append.mp hx with hx | hx
      · exact hlt x hx
      · rcases List.mem_singleton.mp hx with rfl
        exact hc
    · refine List.Chain'.append hch (List.chain'_singleton c) ?_
      intro y hy z hz
      simp only [List.head?_cons, Option.mem_def, Option.some.injEq] at hz
      have : trackLastOut (x0 :: t0) = y.tOut := by
        unfold trackLastOut
        rw [hy]
      rw [← hz, ← this, hd]
    · intro x hx
      rw [List.getLast?_concat] at hx
      cases hx
      exact hreal
    · intro x hx hxr
      rcases List.mem_append.mp hx with hx | hx
      · exact horigs x hx hxr
      · rcases List.mem_singleton.mp hx with rfl
        exact horig
    · intro x hx hxn
      rcases List.mem_append.mp hx with hx | hx
      · rcases hnulls x hx hxn with ⟨y, hy, hyr, hyt⟩
        exact ⟨y, List.mem_append_left _ hy, hyr, hyt⟩
      · rcases List.mem_singleton.mp hx with rfl
        rw [hreal] at hxn
        cases hxn

/-- Appending a gap-filling null clip followed by the real clip preserves
the track invariant. -/
theorem trackInv_append_gap (orig cs : List Clip) (c : Clip)
    (hcs : cs = [] ∨ trackInv orig cs)
    (hd : trackLastOut cs < c.tIn)
    (hc : c.tIn < c.tOut) (hreal : c.isNullClip = false) (horig : c ∈ orig) :
    trackInv orig (cs ++
      [{ tIn := trackLastOut cs, tOut := c.tIn, isNullClip := true,
         track := c.track }, c]) := by
  set nullc : Clip :=
    { tIn := trackLastOut cs, tOut := c.tIn, isNullClip := true, track := c.track }
    with hnullc
  have hlast2 : ∀ l : List Clip, (l ++ [nullc, c]).getLast? = some c := by
    intro l
    rw [show l ++ [nullc, c] = (l ++ [nullc]) ++ [c] by simp]
    exact List.getLast?_concat _
  have hchain2 : List.Chain' (fun x y => x.tOut = y.tIn) [nullc, c] := by
    refine List.chain'_cons.mpr ⟨rfl, List.chain'_singleton c⟩
  rcases hcs with rfl | ⟨hne, hhead, hlt, hch, _, horigs, hnulls⟩
  · refine ⟨by simp, ?_, ?_, ?_, ?_, ?_, ?_⟩
    · show headIn [nullc, c] = 0
      show nullc.tIn = 0
      rfl
    · intro x hx
      simp only [List.nil_append, List.mem_cons, List.mem_nil_iff, or_false] at hx
      rcases hx with rfl | rfl
      · exact hd
      · exact hc
    · simpa using hchain2
    · intro x hx
      rw [hlast2 []] at hx
      cases hx
      exact hreal
    · intro x hx hxr
      simp only [List.nil_append, List.mem_cons, List.mem_nil_iff, or_false] at hx
      rcases hx with rfl | rfl
      · rw [show nullc.isNullClip = true from rfl] at hxr
        cases hxr
      · exact horig
    · intro x hx hxn
      refine ⟨c, by simp, hreal, ?_⟩
      simp only [List.nil_append, List.mem_cons, List.mem_nil_iff, or_false] at hx
      rcases hx with rfl | rfl
      · rfl
      · rw [hreal] at hxn
  · obtain ⟨x0, t0, rfl⟩ := List.exists_cons_of_ne_nil hne
    refine ⟨by simp, hhead, ?_, ?_, ?_, ?_, ?_⟩
    · intro x hx
      rcases List.mem_append.mp hx with hx | hx
      · exact hlt x hx
      · simp only [List.mem_cons, List.mem_nil_iff, or_false] at hx
        rcases hx with rfl | rfl
        · exact hd
        · exact hc
    · refine List.Chain'.append hch hchain2 ?_
      intro y hy z hz
      simp only [List.head?_cons, Option.mem_def, Option.some.injEq] at hz
      have : trackLastOut (x0 :: t0) = y.tOut := by
        unfold trackLastOut
        rw [hy]
      rw [← hz, ← this]
    · intro x hx
      rw [hlast2 (x0 :: t0)] at hx
      cases hx
      exact hreal
    · intro x hx hxr
      rcases List.mem_append.mp hx with hx | hx
      · exact horigs x hx hxr
      · simp only [List.mem_cons, List.mem_nil_iff, or_false] at hx
        rcases hx with rfl | rfl
        · rw [show nullc.isNullClip = true from rfl] at hxr
          cases hxr
        · exact horig
    · intro x hx hxn
      rcases List.mem_append.mp hx with hx | hx
      · rcases hnulls x hx hxn with ⟨y, hy, hyr, hyt⟩
        exact ⟨y, List.mem_append_left _ hy, hyr, hyt⟩
      · refine ⟨c, List.mem_append_right _ (by simp), hreal, ?_⟩
        simp only [List.mem_cons, List.mem_nil_iff, or_false] at hx
        rcases hx with rfl | rfl
        · rfl
        · rw [hreal] at hxn

/-- One successful grouping step preserves the track invariant for every
entry of the map. -/
theorem addClipToTracks_inv (orig : List Clip) (tracks : List (String × List Clip))
    (c : Clip) (t' : List (String × List Clip))
    (hc : c.tIn < c.tOut) (hreal : c.isNullClip = false) (horig : c ∈ orig)
    (hinv : ∀ p ∈ tracks, trackInv orig p.2)
    (h : addClipToTracks tracks c = .ok t') :
    ∀ p ∈ t', trackInv orig p.2 := by
  unfold addClipToTracks at h
  cases hk : getTrackKey c.track with
  | error e =>
      rw [hk, except_bind_err] at h
      cases h
  | ok k =>
      rw [hk, except_bind_ok] at h
      have hcsinv : (mapFind? tracks k).getD [] = [] ∨
          trackInv orig ((mapFind? tracks k).getD []) := by
        cases hl : mapFind? tracks k with
        | none => left; rfl
        | some v =>
            right
            rcases mapFind?_eq_some hl with ⟨q, hq, _, hqv⟩
            simpa [hqv] using hinv q hq
      by_cases h1 : trackLastOut ((mapFind? tracks k).getD []) < c.tIn
      · rw [if_pos h1] at h
        cases h
        intro p hp
        rcases mem_updateTracks hp with hv | hold
        · rw [hv]
          exact trackInv_append_gap orig _ c hcsinv h1 hc hreal horig
        · exact hinv p hold
      · rw [if_neg h1] at h
        by_cases h2 : trackLastOut ((mapFind? tracks k).getD []) > c.tIn
        · rw [if_pos h2] at h
          cases h
        · rw [if_neg h2] at h
          cases h
          intro p hp
          rcases mem_updateTracks hp with hv | hold
          · rw [hv]
            exact trackInv_append_eq orig _ c hcsinv
              (le_antisymm (not_lt.mp h2) (not_lt.mp h1)) hc hreal horig
          · exact hinv p hold

/-- A successful grouping step keeps the key list duplicate-free. -/
theorem addClipToTracks_nodup (tracks : List (String × List Clip)) (c : Clip)
    (t' : List (String × List Clip))
    (hnd : (tracks.map Prod.fst).Nodup)
    (h : addClipToTracks tracks c = .ok t') :
    (t'.map Prod.fst).Nodup := by
  unfold addClipToTracks at h
  cases hk : getTrackKey c.track with
  | error e =>
      rw [hk, except_bind_err] at h
      cases h
  | ok k =>
      rw [hk, except_bind_ok] at h
      by_cases h1 : trackLastOut ((mapFind? tracks k).getD []) < c.tIn
      · rw [if_pos h1] at h
        cases h
        exact updateTracks_nodup hnd
      · rw [if_neg h1] at h
        by_cases h2 : trackLastOut ((mapFind? tracks k).getD []) > c.tIn
        · rw [if_pos h2] at h
          cases h
        · rw [if_neg h2] at h
          cases h
          exact updateTracks_nodup hnd

/-- The whole grouping loop preserves the invariant and key uniqueness. -/
theorem buildTracks_inv (orig : List Clip) :
    ∀ (clips : List Clip) (tracks result : List (String × List Clip)),
    (∀ c ∈ clips, c.tIn < c.tOut ∧ c.isNullClip = false ∧ c ∈ orig) →
    (∀ p ∈ tracks, trackInv orig p.2) →
    (tracks.map Prod.fst).Nodup →
    List.foldlM addClipToTracks tracks clips = .ok result →
    (∀ p ∈ result, trackInv orig p.2) ∧ (result.map Prod.fst).Nodup
  | [], tracks, result, _, hinv, hnd, h => by
      simp only [List.foldlM_nil] at h
      cases h
      exact ⟨hinv, hnd⟩
  | c :: cl, tracks, result, hval, hinv, hnd, h => by
      rw [List.foldlM_cons] at h
      cases hstep : addClipToTracks tracks c with
      | error e =>
          rw [hstep, except_bind_err] at h
          cases h
      | ok t' =>
          rw [hstep, except_bind_ok] at h
          have hc := hval c (List.mem_cons_self c cl)
          exact buildTracks_inv orig cl t' result
            (fun x hx => hval x (List.mem_cons_of_mem c hx))
            (addClipToTracks_inv orig tracks c t' hc.1 hc.2.1 hc.2.2 hinv hstep)
            (addClipToTracks_nodup tracks c t' hnd hstep) h

theorem headIn_append (cs l : List Clip) (hne : cs ≠ []) :
    headIn (cs ++ l) = headIn cs := by
  obtain ⟨x, t, rfl⟩ := List.exists_cons_of_ne_nil hne
  rfl

/-- Extending a well-formed track to the EDL duration yields a track with
all the claimed properties ending exactly at that duration. -/
theorem extendTrack_spec (orig : List Clip) (dur : ℚ) (cs : List Clip)
    (hinv : trackInv orig cs) (hle : trackLastOut cs ≤ dur) :
    extendTrack dur cs ≠ [] ∧ headIn (extendTrack dur cs) = 0 ∧
    trackLastOut (extendTrack dur cs) = dur ∧
    (∀ x ∈ extendTrack dur cs, x.tIn < x.tOut) ∧
    List.Chain' (fun x y => x.tOut = y.tIn) (extendTrack dur cs) ∧
    (∀ x ∈ extendTrack dur cs, x.isNullClip = false → x ∈ orig) ∧
    (∀ x ∈ extendTrack dur cs, x.isNullClip = true →
      ∃ y ∈ extendTrack dur cs, y.isNullClip = false ∧ x.track = y.track) := by
  obtain ⟨hne, hhead, hlt, hch, hlastreal, horigs, hnulls⟩ := hinv
  have hl : cs.getLast? = some (cs.getLast hne) := List.getLast?_eq_getLast cs hne
  have hlo : trackLastOut cs = (cs.getLast hne).tOut := by
    unfold trackLastOut
    rw [hl]
  have hlastmem : cs.getLast hne ∈ cs := List.getLast_mem hne
  have hlastr : (cs.getLast hne).isNullClip = false := hlastreal _ hl
  unfold extendTrack
  rw [hl]
  dsimp only
  by_cases hlt2 : (cs.getLast hne).tOut < dur
  · rw [if_pos hlt2]
    refine ⟨by simp, ?_, ?_, ?_, ?_, ?_, ?_⟩
    · rw [headIn_append cs _ hne]
      exact hhead
    · unfold trackLastOut
      rw [List.getLast?_concat]
    · intro x hx
      rcases List.mem_append.mp hx with hx | hx
      · exact hlt x hx
      · rcases List.mem_singleton.mp hx with rfl
        exact hlt2
    · refine List.Chain'.append hch (List.chain'_singleton _) ?_
      intro y hy z hz
      simp only [List.head?_cons, Option.mem_def, Option.some.injEq] at hz
      rw [hl] at hy
      simp only [Option.mem_def, Option.some.injEq] at hy
      rw [← hz, ← hy]
    · intro x hx hxr
      rcases List.mem_append.mp hx with hx | hx
      · exact horigs x hx hxr
      · rcases List.mem_singleton.mp hx with rfl
        cases hxr
    · intro x hx hxn
      rcases List.mem_append.mp hx with hx | hx
      · rcases hnulls x hx hxn with ⟨y, hy, hyr, hyt⟩
        exact ⟨y, List.mem_append_left _ hy, hyr, hyt⟩
      · rcases List.mem_singleton.mp hx with rfl
        exact ⟨cs.getLast hne, List.mem_append_left _ hlastmem, hlastr, rfl⟩
  · rw [if_neg hlt2]
    have hde : trackLastOut cs = dur := by
      rw [hlo]
      exact le_antisymm (hlo ▸ hle) (not_lt.mp hlt2)
    exact ⟨hne, hhead, hde, hlt, hch, horigs, hnulls⟩

/-- The running maximum of track durations dominates its start value and
every track's duration. -/
theorem foldl_max_trackLastOut :
    ∀ (ts : List (String × List Clip)) (a : ℚ),
      (a ≤ ts.foldl (fun m p => max m (trackLastOut p.2)) a) ∧
      (∀ p ∈ ts, trackLastOut p.2 ≤ ts.foldl (fun m p => max m (trackLastOut p.2)) a)
  | [], a => by simp
  | q :: t, a => by
      simp only [List.foldl_cons]
      constructor
      · exact le_trans (le_max_left _ _) (foldl_max_trackLastOut t _).1
      · intro p hp
        rcases List.mem_cons.mp hp with rfl | hp
        · exact le_trans (le_max_right _ _) (foldl_max_trackLastOut t _).1
        · exact (foldl_max_trackLastOut t _).2 p hp

theorem le_edlDurationOf (ts : List (String × List Clip)) (p : String × List Clip)
    (hp : p ∈ ts) : trackLastOut p.2 ≤ edlDurationOf ts :=
  (foldl_max_trackLastOut ts 0).2 p hp

/-- The old keys collected by the effects-track discovery are exactly the
`_effects_`-prefixed keys of the map, in order. -/
theorem collectFx_spec :
    ∀ (ts : List (String × List Clip)) (n : Nat) (rn ap : List (String × String)),
    collectFx ts n = .ok (rn, ap) →
    rn.map Prod.fst = (ts.map Prod.fst).filter (fun k => k.startsWith "_effects_")
  | [], _, rn, ap, h => by
      cases h
      rfl
  | (k, cs) :: rest, n, rn, ap, h => by
      rw [show collectFx ((k, cs) :: rest) n =
          (if k.startsWith "_effects_" then do
            let applies ← collectFxApplies ("fx_" ++ toString n) cs
            let (renames, applyRest) ← collectFx rest (n + 1)
            .ok ((k, "fx_" ++ toString n) :: renames, applies ++ applyRest)
          else collectFx rest n) from rfl] at h
      by_cases hpre : k.startsWith "_effects_"
      · rw [if_pos hpre] at h
        cases happ : collectFxApplies ("fx_" ++ toString n) cs with
        | error e =>
            rw [happ, except_bind_err] at h
            cases h
        | ok applies =>
            rw [happ, except_bind_ok] at h
            cases hrec : collectFx rest (n + 1) with
            | error e =>
                rw [hrec, except_bind_err] at h
                cases h
            | ok pr =>
                rw [hrec, except_bind_ok] at h
                obtain ⟨rn', ap'⟩ := pr
                cases h
                simp only [List.map_cons, List.filter_cons, hpre, if_true]
                rw [collectFx_spec rest (n + 1) rn' ap' hrec]
      · rw [if_neg hpre] at h
        rw [collectFx_spec rest n rn ap h]
        simp only [List.map_cons, List.filter_cons]
        rw [if_neg (by simpa using hpre)]

/-- Renaming effects tracks preserves any property of the stored track
lists, provided the old keys are distinct and present. -/
theorem renameFxTracks_inv (P : List Clip → Prop) :
    ∀ (rn : List (String × String)) (ts : List (String × List Clip)),
    (∀ p ∈ ts, P p.2) →
    ((rn.map Prod.fst).Nodup) →
    (∀ pr ∈ rn, (mapFind? ts pr.1).isSome = true) →
    ∀ p ∈ renameFxTracks ts rn, P p.2
  | [], ts, hP, _, _, p, hp => hP p hp
  | (a, b) :: rest, ts, hP, hnd, hsome, p, hp => by
      have hstep : renameFxTracks ts ((a, b) :: rest) =
          renameFxTracks ((ts.filter (fun q => q.1 != a)) ++
            [(b, (mapFind? ts a).getD [])]) rest := by
        unfold renameFxTracks
        rw [List.foldl_cons]
      rw [hstep] at hp
      have hsa : (mapFind? ts a).isSome = true :=
        hsome (a, b) (List.mem_cons_self _ _)
      obtain ⟨v, hv⟩ := Option.isSome_iff_exists.mp hsa
      have hPv : P v := by
        rcases mapFind?_eq_some hv with ⟨q, hq, _, hqv⟩
        rw [← hqv]
        exact hP q hq
      have hP' : ∀ q ∈ (ts.filter (fun q => q.1 != a)) ++
          [(b, (mapFind? ts a).getD [])], P q.2 := by
        intro q hq
        rcases List.mem_append.mp hq with hq | hq
        · exact hP q (List.mem_of_mem_filter hq)
        · rcases List.mem_singleton.mp hq with rfl
          simpa [hv] using hPv
      have hnd' : (rest.map Prod.fst).Nodup := (List.nodup_cons.mp (by simpa using hnd)).2
      have hnotin : a ∉ rest.map Prod.fst := (List.nodup_cons.mp (by simpa using hnd)).1
      have hsome' : ∀ pr ∈ rest, (mapFind? ((ts.filter (fun q => q.1 != a)) ++
          [(b, (mapFind? ts a).getD [])]) pr.1).isSome = true := by
        intro pr hpr
        have hne : pr.1 ≠ a := by
          intro hcon
          exact hnotin (hcon ▸ List.mem_map_of_mem Prod.fst hpr)
        have hfil : mapFind? (ts.filter (fun q => q.1 != a)) pr.1 = mapFind? ts pr.1 :=
          mapFind?_filter_ne ts a pr.1 hne
        have hfs : (mapFind? (ts.filter (fun q => q.1 != a)) pr.1).isSome = true := by
          rw [hfil]
          exact hsome pr (List.mem_cons_of_mem _ hpr)
        rw [mapFind?_append_left _ _ _ hfs]
        exact hfs
      exact renameFxTracks_inv P rest _ hP' hnd' hsome' p hp

/-- A clip whose in-point lies strictly before the accumulated track
duration makes the grouping step throw the overlap error. -/
theorem addClipToTracks_overlap (tracks : List (String × List Clip)) (c : Clip)
    (k : String) (hk : getTrackKey c.track = .ok k)
    (hover : trackLastOut ((mapFind? tracks k).getD []) > c.tIn) :
    addClipToTracks tracks c = .error "Track has overlapping clips" := by
  unfold addClipToTracks
  rw [hk, except_bind_ok]
  rw [if_neg (not_lt.mpr hover.le), if_pos hover]

/-- C5: after a successful normalization, every track of the track map is a
non-empty consecutive chain of non-degenerate clips from 0 to the common
EDL duration, with pairwise non-overlapping intervals whose union is
exactly `[0, edlDuration)`; every real clip comes from the input and every
synthesized null clip shares its track identity with a real clip of the
same track; and a clip whose in-point lies strictly before the accumulated
track duration makes the grouping step throw the overlap error. -/
theorem track_alignment_partition :
    (∀ (clips : List Clip) (tracksOut : List (String × List Clip))
        (fxMap : List (String × String)),
      (∀ c ∈ clips, c.tIn < c.tOut ∧ c.isNullClip = false) →
      alignTracksWithNullClips clips = .ok (tracksOut, fxMap) →
      ∃ edlDuration : ℚ,
        ∀ p ∈ tracksOut,
          p.2 ≠ [] ∧ headIn p.2 = 0 ∧ trackLastOut p.2 = edlDuration ∧
          (∀ x ∈ p.2, x.tIn < x.tOut) ∧
          List.Chain' (fun x y => x.tOut = y.tIn) p.2 ∧
          List.Pairwise (fun x y => x.tOut ≤ y.tIn) p.2 ∧
          (∀ q : ℚ, (∃ x ∈ p.2, x.tIn ≤ q ∧ q < x.tOut) ↔
            (0 ≤ q ∧ q < edlDuration)) ∧
          (∀ x ∈ p.2, x.isNullClip = false → x ∈ clips) ∧
          (∀ x ∈ p.2, x.isNullClip = true →
            ∃ y ∈ p.2, y.isNullClip = false ∧ x.track = y.track)) ∧
    (∀ (tracks : List (String × List Clip)) (c : Clip) (k : String),
      getTrackKey c.track = .ok k →
      trackLastOut ((mapFind? tracks k).getD []) > c.tIn →
      addClipToTracks tracks c = .error "Track has overlapping clips") := by
  constructor
  · intro clips tracksOut fxMap hval halign
    unfold alignTracksWithNullClips at halign
    cases hbuild : List.foldlM addClipToTracks [] clips with
    | error e =>
        rw [hbuild, except_bind_err] at halign
        cases halign
    | ok tracks0 =>
        rw [hbuild, except_bind_ok] at halign
        dsimp only at halign
        cases hcfx : collectFx (tracks0.map (fun p =>
            (p.1, extendTrack (edlDurationOf tracks0) p.2))) 0 with
        | error e =>
            rw [hcfx, except_bind_err] at halign
            cases halign
        | ok pr =>
            obtain ⟨renames, fxA⟩ := pr
            rw [hcfx, except_bind_ok] at halign
            dsimp only at halign
            injection halign with h1
            rw [Prod.mk.injEq] at h1
            obtain ⟨h1a, _⟩ := h1
            subst h1a
            obtain ⟨hinv0, hnd0⟩ := buildTracks_inv clips clips [] tracks0
              (fun c hc0 => ⟨(hval c hc0).1, (hval c hc0).2, hc0⟩)
              (fun p hp => absurd hp (List.not_mem_nil p))
              (by simp) hbuild
            refine ⟨edlDurationOf tracks0, ?_⟩
            have hPext : ∀ p ∈ tracks0.map (fun p =>
                (p.1, extendTrack (edlDurationOf tracks0) p.2)),
                p.2 ≠ [] ∧ headIn p.2 = 0 ∧
                trackLastOut p.2 = edlDurationOf tracks0 ∧
                (∀ x ∈ p.2, x.tIn < x.tOut) ∧
                List.Chain' (fun x y => x.tOut = y.tIn) p.2 ∧
                List.Pairwise (fun x y => x.tOut ≤ y.tIn) p.2 ∧
                (∀ q : ℚ, (∃ x ∈ p.2, x.tIn ≤ q ∧ q < x.tOut) ↔
                  (0 ≤ q ∧ q < edlDurationOf tracks0)) ∧
                (∀ x ∈ p.2, x.isNullClip = false → x ∈ clips) ∧
                (∀ x ∈ p.2, x.isNullClip = true →
                  ∃ y ∈ p.2, y.isNullClip = false ∧ x.track = y.track) := by
              intro p hp
              rcases List.mem_map.mp hp with ⟨q, hq, rfl⟩
              dsimp only
              obtain ⟨s1, s2, s3, s4, s5, s6, s7⟩ :=
                extendTrack_spec clips (edlDurationOf tracks0) q.2 (hinv0 q hq)
                  (le_edlDurationOf tracks0 q hq)
              refine ⟨s1, s2, s3, s4, s5, chain_pairwise _ s4 s5, ?_, s6, s7⟩
              intro qq
              have hmi := covers_mem_iff (extendTrack (edlDurationOf tracks0) q.2)
                s1 s4 s5 qq
              rw [s2, s3] at hmi
              exact hmi
            have holds := collectFx_spec _ 0 renames fxA hcfx
            have hkeys : ((tracks0.map (fun p =>
                (p.1, extendTrack (edlDurationOf tracks0) p.2))).map Prod.fst) =
                tracks0.map Prod.fst := by
              rw [List.map_map]
              rfl
            have hndrn : (renames.map Prod.fst).Nodup := by
              rw [holds, hkeys]
              exact List.Nodup.filter _ hnd0
            have hsome : ∀ pr ∈ renames, (mapFind? (tracks0.map (fun p =>
                (p.1, extendTrack (edlDurationOf tracks0) p.2))) pr.1).isSome = true := by
              intro pr hpr
              apply mapFind?_isSome_of_mem
              have hm : pr.1 ∈ renames.map Prod.fst := List.mem_map_of_mem Prod.fst hpr
              rw [holds] at hm
              exact List.mem_of_mem_filter hm
            intro p hp
            exact renameFxTracks_inv (fun cs =>
                cs ≠ [] ∧ headIn cs = 0 ∧
                trackLastOut cs = edlDurationOf tracks0 ∧
                (∀ x ∈ cs, x.tIn < x.tOut) ∧
                List.Chain' (fun x y => x.tOut = y.tIn) cs ∧
                List.Pairwise (fun x y => x.tOut ≤ y.tIn) cs ∧
                (∀ q : ℚ, (∃ x ∈ cs, x.tIn ≤ q ∧ q < x.tOut) ↔
                  (0 ≤ q ∧ q < edlDurationOf tracks0)) ∧
                (∀ x ∈ cs, x.isNullClip = false → x ∈ clips) ∧
                (∀ x ∈ cs, x.isNullClip = true →
                  ∃ y ∈ cs, y.isNullClip = false ∧ x.track = y.track))
              renames _ hPext hndrn hsome p hp
  · intro tracks c k hk hover
    exact addClipToTracks_overlap tracks c k hk hover

/-- Witness for C5: the empty EDL normalizes to an empty track map, and the
spec's overlap scenario (clips `[0,3)` and `[2,5)` on the same video track)
is rejected at the second clip. -/
theorem track_alignment_partition_witness :
    (∃ edlDuration : ℚ,
      ∀ p ∈ ([] : List (String × List Clip)),
        p.2 ≠ [] ∧ headIn p.2 = 0 ∧ trackLastOut p.2 = edlDuration ∧
        (∀ x ∈ p.2, x.tIn < x.tOut) ∧
        List.Chain' (fun x y => x.tOut = y.tIn) p.2 ∧
        List.Pairwise (fun x y => x.tOut ≤ y.tIn) p.2 ∧
        (∀ q : ℚ, (∃ x ∈ p.2, x.tIn ≤ q ∧ q < x.tOut) ↔
          (0 ≤ q ∧ q < edlDuration)) ∧
        (∀ x ∈ p.2, x.isNullClip = false → x ∈ ([] : List Clip)) ∧
        (∀ x ∈ p.2, x.isNullClip = true →
          ∃ y ∈ p.2, y.isNullClip = false ∧ x.track = y.track)) ∧
    addClipToTracks [("video_1", [{ tIn := 0, tOut := 3 }])] { tIn := 2, tOut := 5 } =
      .error "Track has overlapping clips" := by
  constructor
  · exact track_alignment_partition.1 [] [] []
      (fun c hc => absurd hc (List.not_mem_nil c)) rfl
  · exact track_alignment_partition.2 [("video_1", [{ tIn := 0, tOut := 3 }])]
      { tIn := 2, tOut := 5 } "video_1" rfl (by decide)

/-- C1: `parseClip` accepts a clip JSON object carrying the unsupported key
`extraKey` (outside the supported set), silently ignoring it —
`checkUnsupportedClipFeatures` declares the supported-key set but never
enforces it, and only `font`/`fonts` keys are actually rejected. -/
theorem parseClip_accepts_unknown_clip_key :
    parseClip extraKeyClipJson =
      .ok { tIn := 0, tOut := 1,
            track := { type := .Video, number := 1 },
            source := some (.media { uri := "a.mp4", tIn := 0, tOut := 1 }) } ∧
    parseClip fontClipJson = .error "Font/fonts in clips are not supported" := by
  constructor
  · rfl
  · rfl

end Edl2ffmpeg
